import Mathlib

/-!
# ESP32CrashUploader

A shallow embedding of `.tests/templates/Dumper/ESP32CrashUploader.cpp` and
theorems about it.

The two methods `begin` and `tryUpload` become functions from the object and
the outcomes of the collaborators they call (ESP-IDF, the heap, WiFi, the TCP
client) to a `Run`: the object at return, the return point that was taken, and
the collaborator calls that were made, in order. `Serial` output is diagnostic
narration and is not part of the model; locals that only feed `Serial`
(`protocol`, `connectionString`, the two hex-dump loops, the `connected()`
checks of lines 221 and 272) are left out.

Text is a list of bytes, as in a C string or an Arduino `String`.
-/

namespace Dumper

/-! ## Bytes and text -/

/-- One `char` / `uint8_t`. -/
abbrev Byte := Fin 256

/-- The bytes of an ASCII literal of the source. -/
def ascii (s : String) : List Byte := s.toList.map fun c => Fin.ofNat c.toNat

/-- Carriage return, line feed. -/
def CRLF : List Byte := [13, 10]

/-! ## The Arduino `String` operations the source uses (WString.cpp) -/

/-- Conversion of an `int` argument to the `unsigned int` parameter of
`substring`: a negative value wraps to `2^32 + i`. -/
def toUnsigned (i : Int) : Nat := if i < 0 then (i + 4294967296).toNat else i.toNat

/-- Conversion of an `unsigned int` sum to `int` (32-bit two's complement). -/
def toInt32 (n : Nat) : Int :=
  if n % 4294967296 < 2147483648 then ((n % 4294967296 : Nat) : Int)
  else ((n % 4294967296 : Nat) : Int) - 4294967296

/-- Whether `p` is a prefix of the text: `strncmp(p, s, strlen(p)) == 0`. -/
def startsWith {α : Type} [DecidableEq α] : List α → List α → Bool
  | [], _ => true
  | _ :: _, [] => false
  | a :: as, b :: bs => if a = b then startsWith as bs else false

/-- The scan of `String::replace(find, replace)`, left to right over the
original text. `skip` counts the bytes of a match just found that are still to
be stepped over. -/
def replaceScan {α : Type} [DecidableEq α] (find replace : List α) : Nat → List α → List α
  | _, [] => []
  | skip + 1, _ :: cs => replaceScan find replace skip cs
  | 0, c :: cs =>
    if startsWith find (c :: cs) then replace ++ replaceScan find replace (find.length - 1) cs
    else c :: replaceScan find replace 0 cs

/-- Arduino `String::replace(find, replace)`: every occurrence found by the left to
right scan is replaced; nothing happens for an empty text or an empty `find`. -/
def replace {α : Type} [DecidableEq α] (s find replace : List α) : List α :=
  if s = [] ∨ find = [] then s else replaceScan find replace 0 s

/-- Position of the first `c` counted from `i`, or `-1`. -/
def indexOfFrom (c : Byte) : Nat → List Byte → Int
  | _, [] => -1
  | i, x :: xs => if x = c then (i : Int) else indexOfFrom c (i + 1) xs

/-- Arduino `String::indexOf(char)`. -/
def indexOf (s : List Byte) (c : Byte) : Int := indexOfFrom c 0 s

/-- Arduino `String::substring(left, right)` on `unsigned int` arguments: the bounds are
swapped when out of order, a start at or past the end gives the empty string,
and the end is clipped to the length. -/
def substring (s : List Byte) (left right : Nat) : List Byte :=
  let l := if left > right then right else left
  let r := if left > right then left else right
  if l ≥ s.length then []
  else (s.take (if r > s.length then s.length else r)).drop l

/-- Arduino `String::substring(beginIndex)`. -/
def substringFrom (s : List Byte) (beginIndex : Nat) : List Byte :=
  substring s beginIndex s.length

/-- C `isspace`. -/
def isspace (b : Byte) : Bool := b = 32 || (9 ≤ b.val && b.val ≤ 13)

/-- C `isdigit`. -/
def isdigit (b : Byte) : Bool := 48 ≤ b.val && b.val ≤ 57

/-- The accumulation loop of `atol` over a run of digits. -/
def digitsValue (ds : List Byte) : Nat :=
  ds.foldl (fun acc d => acc * 10 + (d.val - 48)) 0

/-- Arduino `String::toInt()`, that is `atol`: leading white space, an optional sign,
then the longest run of digits; saturating at the bounds of a 32-bit `long`. -/
def toInt (s : List Byte) : Int :=
  let s1 := s.dropWhile isspace
  let neg := s1.head? = some 45
  let s2 := if s1.head? = some 45 ∨ s1.head? = some 43 then s1.tail else s1
  let v : Int := (digitsValue (s2.takeWhile isdigit) : Nat)
  let r : Int := if neg then -v else v
  if r > 2147483647 then 2147483647 else if r < -2147483648 then -2147483648 else r

/-- Decimal digits of a natural number. -/
def natDecimal (n : Nat) : List Byte :=
  (Nat.toDigits 10 n).map fun c => Fin.ofNat c.toNat

/-- Arduino `String(int)`: the decimal text of an `int`. -/
def decimal (i : Int) : List Byte :=
  if i < 0 then (45 : Byte) :: natDecimal (-i).toNat else natDecimal i.toNat

/-- One upper-case hexadecimal digit. -/
def hexDigit (n : Nat) : Byte :=
  if n < 10 then Fin.ofNat (48 + n) else Fin.ofNat (55 + n)

/-- The conversion `%02X` applied to a `uint8_t`. -/
def hex02X (b : Byte) : List Byte := [hexDigit (b.val / 16), hexDigit (b.val % 16)]

/-- The sum `lhs + cstr` for a `const char *` operand: a null pointer invalidates the
sum, which restarts empty. -/
def plusCStr (lhs : List Byte) : Option (List Byte) → List Byte
  | none => []
  | some cstr => lhs ++ cstr

/-! ## The object -/

/-- The fields of `class ESP32CrashUploader`. The two pointers the code tests
against null are optional. -/
structure ESP32CrashUploader where
  _serverUrl : List Byte
  _firmwareVersion : List Byte
  _project : List Byte
  _deviceId : Option (List Byte)
  _fqbn : List Byte
  _authToken : Option (List Byte)
deriving DecidableEq

/-! ## Collaborators -/

/-- Modelled from the spec: the reset reason is "an enumerated classification of
why the device last restarted (software-triggered, power-on,
exception/panic/watchdog, unknown)". The enumeration `esp_reset_reason_t` is
declared by ESP-IDF (`esp_system.h`), not by this repository; the constructors
are its members. -/
inductive esp_reset_reason_t where
  | ESP_RST_UNKNOWN
  | ESP_RST_POWERON
  | ESP_RST_EXT
  | ESP_RST_SW
  | ESP_RST_PANIC
  | ESP_RST_INT_WDT
  | ESP_RST_TASK_WDT
  | ESP_RST_WDT
  | ESP_RST_DEEPSLEEP
  | ESP_RST_BROWNOUT
  | ESP_RST_SDIO
  | ESP_RST_USB
  | ESP_RST_JTAG
  | ESP_RST_EFUSE
  | ESP_RST_PWR_GLITCH
  | ESP_RST_CPU_LOCKUP
deriving DecidableEq, Repr

/-- The outcomes of every collaborator a run consults. -/
structure Env where
  /-- The call `esp_read_mac(mac, ESP_MAC_WIFI_STA)`: the six bytes written. -/
  mac : Fin 6 → Byte
  /-- Whether `WiFi.status() == WL_CONNECTED` at the poll made with the given
  `retryCount`. -/
  wifiConnected : Nat → Bool
  /-- The value of `esp_reset_reason()`. -/
  reset_reason : esp_reset_reason_t
  /-- The call `esp_core_dump_image_get`: `(addr, size)` on `ESP_OK`, `none` otherwise. -/
  core_dump_image : Option (Nat × Nat)
  /-- The call `esp_partition_find_first(..., "coredump")`: `(address, size)` of the
  partition, `none` for `NULL`. -/
  partition : Option (Nat × Nat)
  /-- Whether `ps_malloc(size)` returns a buffer. -/
  ps_malloc : Nat → Bool
  /-- Whether `heap_caps_malloc(size, MALLOC_CAP_8BIT)` returns a buffer. -/
  heap_caps_malloc : Nat → Bool
  /-- Whether `esp_partition_read(partition, 0, buffer, size)` returns
  `ESP_OK`. -/
  partition_read : Nat → Bool
  /-- The byte of the coredump partition at each offset. -/
  flash : Nat → Byte
  /-- The call `WiFi.hostByName(hostname, ip)`: the address, `none` on failure. -/
  hostByName : List Byte → Option Nat
  /-- Whether `client.connect(ip, port)` succeeds. -/
  connect : Nat → Nat → Bool
  /-- The return value of `client.write(buffer, size)`: how many of the bytes
  handed over the transport accepted. -/
  client_write : List Byte → Nat
  /-- How many times `client.connected()` answers true in the loop of line 258
  before it answers false. A run in which it never answers false and no empty
  line arrives never leaves the loop; every run that returns is covered by some
  number. -/
  linkUp : Nat
  /-- The bytes the server sends before the read timeout. -/
  rx : List Byte

/-- A call to a collaborator, with its arguments and result where the run
depends on them. -/
inductive Event where
  | esp_read_mac
  | wifi_mode
  | wifi_begin (ssid password : List Byte)
  | delay (ms : Nat)
  | esp_reset_reason
  | esp_core_dump_image_get (ok : Bool)
  | esp_partition_find_first (ok : Bool)
  | ps_malloc (size : Nat) (ok : Bool)
  | heap_caps_malloc (size : Nat) (ok : Bool)
  | esp_partition_read (size : Nat) (ok : Bool)
  | free
  | hostByName (hostname : List Byte) (ok : Bool)
  | connect (ip port : Nat) (ok : Bool)
  | print (text : List Byte)
  | write (buffer : List Byte) (accepted : Nat)
  | readStringUntil (line : List Byte)
  | readString (text : List Byte)
  | stop
deriving DecidableEq

/-- The return points of `tryUpload`, under the names the specification gives
its terminal states: line 61, lines 72 and 84, line 108, line 119, line 209,
line 219, and the end of the function (with the local `response`). -/
inductive Terminal where
  | Skipped
  | NoDump
  | AllocFailed
  | ReadFailed
  | DnsFailed
  | ConnectFailed
  | Sent (response : List Byte)
deriving DecidableEq

/-- What a call of a method leaves behind. -/
structure Run where
  self : ESP32CrashUploader
  terminal : Terminal
  trace : List Event

/-! ## `tryUpload`, piece by piece -/

/-- Line 150. -/
def boundary : List Byte := ascii "----ESPBOUNDARY"

/-- Lines 151-163. -/
def bodyStart (self : ESP32CrashUploader) : List Byte :=
  plusCStr
    (ascii "--" ++ boundary ++ ascii "\r\n" ++
      ascii "Content-Disposition: form-data; name=\"version\"\r\n\r\n" ++
      self._firmwareVersion ++ ascii "\r\n" ++ ascii "--" ++ boundary ++ ascii "\r\n" ++
      ascii "Content-Disposition: form-data; name=\"project\"\r\n\r\n" ++ self._project ++
      ascii "\r\n" ++ ascii "--" ++ boundary ++ ascii "\r\n" ++
      ascii "Content-Disposition: form-data; name=\"device_id\"\r\n\r\n")
    self._deviceId ++
  ascii "\r\n" ++ ascii "--" ++ boundary ++ ascii "\r\n" ++
  ascii "Content-Disposition: form-data; name=\"fqbn\"\r\n\r\n" ++ self._fqbn ++ ascii "\r\n" ++
  ascii "--" ++ boundary ++ ascii "\r\n" ++
  ascii "Content-Disposition: form-data; name=\"coredump\"; filename=\"coredump.bin\"\r\n" ++
  ascii "Content-Type: application/octet-stream\r\n\r\n"

/-- Line 164. -/
def bodyEnd : List Byte := ascii "\r\n--" ++ boundary ++ ascii "--\r\n"

/-- Line 165: `int contentLength = bodyStart.length() + size + bodyEnd.length()`,
an unsigned 32-bit sum converted to `int`. -/
def contentLength (self : ESP32CrashUploader) (size : Nat) : Int :=
  toInt32 ((bodyStart self).length + size + bodyEnd.length)

/-- Lines 176-179: the URL with every `https://` and then every `http://`
removed. -/
def url (self : ESP32CrashUploader) : List Byte :=
  replace (replace self._serverUrl (ascii "https://") []) (ascii "http://") []

/-- Line 180. -/
def slashIndex (self : ESP32CrashUploader) : Int := indexOf (url self) 47

/-- Line 181. -/
def host (self : ESP32CrashUploader) : List Byte :=
  substring (url self) 0 (toUnsigned (slashIndex self))

/-- Line 182. -/
def path (self : ESP32CrashUploader) : List Byte :=
  substringFrom (url self) (toUnsigned (slashIndex self))

/-- Line 192. -/
def colonIndex (self : ESP32CrashUploader) : Int := indexOf (host self) 58

/-- Lines 193-198. -/
def hostname (self : ESP32CrashUploader) : List Byte :=
  if colonIndex self ≠ -1 then substring (host self) 0 (toUnsigned (colonIndex self))
  else host self

/-- Lines 194-198: `uint16_t port`. -/
def port (self : ESP32CrashUploader) : Nat :=
  if colonIndex self ≠ -1 then
    (toInt (substringFrom (host self) (toUnsigned (colonIndex self + 1))) % 65536).toNat
  else 80

/-- Lines 100-114: `ps_malloc`, then `heap_caps_malloc` if that failed. The
flag says whether `buffer` is non-null. -/
def allocate (env : Env) (size : Nat) : List Event × Bool :=
  if env.ps_malloc size then ([.ps_malloc size true], true)
  else if env.heap_caps_malloc size then
    ([.ps_malloc size false, .heap_caps_malloc size true], true)
  else ([.ps_malloc size false, .heap_caps_malloc size false], false)

/-- The `size` bytes `esp_partition_read(partition, 0, buffer, size)` puts in
`buffer`. -/
def readBuffer (env : Env) (size : Nat) : List Byte := (List.range size).map env.flash

/-- Lines 229-239: the request line and the headers, one entry per
`client.print`. -/
def requestHead (self : ESP32CrashUploader) (size : Nat) : List (List Byte) :=
  [ascii "POST " ++ path self ++ ascii " HTTP/1.1\r\n",
   ascii "Host: " ++ host self ++ ascii "\r\n",
   ascii "Content-Type: multipart/form-data; boundary=" ++ boundary ++ ascii "\r\n",
   ascii "Content-Length: " ++ decimal (contentLength self size) ++ ascii "\r\n"] ++
  (match self._authToken with
   | some token => [ascii "Authorization: Bearer ", token, ascii "\r\n"]
   | none => []) ++
  [ascii "Connection: close\r\n\r\n"]

/-- Arduino `Stream::readStringUntil(terminator)`: the bytes before the first
terminator, which is consumed; everything if the stream ends first. Returns the
line and what is left of the stream. -/
def readStringUntil (terminator : Byte) : List Byte → List Byte × List Byte
  | [] => ([], [])
  | c :: cs =>
    if c = terminator then ([], cs)
    else ((c :: (readStringUntil terminator cs).1), (readStringUntil terminator cs).2)

/-- Arduino `String::equals(const char *)`, behind `line == "\r"`, for a
literal without NUL: an empty `String` equals only the empty literal; otherwise
it is `strcmp`, which reads the `String` up to its first NUL. -/
def equalsCStr (s cstr : List Byte) : Bool :=
  if s = [] then cstr = [] else s.takeWhile (fun b => b ≠ 0) = cstr

/-- Lines 258-263: `while (client.connected())` read a line up to `\n` and stop
after a line for which `line == "\r"`. Returns the lines read and what is left
of the stream. -/
def readHeaders : Nat → List Byte → List (List Byte) × List Byte
  | 0, rx => ([], rx)
  | linkUp + 1, rx =>
    if equalsCStr (readStringUntil 10 rx).1 [13] then
      ([(readStringUntil 10 rx).1], (readStringUntil 10 rx).2)
    else ((readStringUntil 10 rx).1 :: (readHeaders linkUp (readStringUntil 10 rx).2).1,
          (readHeaders linkUp (readStringUntil 10 rx).2).2)

/-- Line 264: `client.readString()` takes all that is left. -/
def response (env : Env) : List Byte := (readHeaders env.linkUp env.rx).2

/-- Lines 229-277: everything after a successful `connect`. -/
def exchange (self : ESP32CrashUploader) (env : Env) (size : Nat) : List Event :=
  (requestHead self size).map Event.print ++
  [.print (bodyStart self),
   .write (readBuffer env size) (env.client_write (readBuffer env size)),
   .print bodyEnd] ++
  (readHeaders env.linkUp env.rx).1.map Event.readStringUntil ++
  [.readString (response env), .stop, .free]

/-- Lines 54-279. -/
def tryUpload (self : ESP32CrashUploader) (env : Env) : Run :=
  if env.reset_reason = .ESP_RST_SW ∨ env.reset_reason = .ESP_RST_POWERON then
    ⟨self, .Skipped, [.esp_reset_reason]⟩
  else
    match env.core_dump_image with
    | none => ⟨self, .NoDump, [.esp_reset_reason, .esp_core_dump_image_get false]⟩
    | some (_, size) =>
      match env.partition with
      | none =>
        ⟨self, .NoDump,
          [.esp_reset_reason, .esp_core_dump_image_get true, .esp_partition_find_first false]⟩
      | some _ =>
        let probed :=
          [Event.esp_reset_reason, .esp_core_dump_image_get true, .esp_partition_find_first true]
        if (allocate env size).2 = false then
          ⟨self, .AllocFailed, probed ++ (allocate env size).1⟩
        else if env.partition_read size = false then
          ⟨self, .ReadFailed,
            probed ++ (allocate env size).1 ++ [.esp_partition_read size false, .free]⟩
        else
          let loaded := probed ++ (allocate env size).1 ++ [.esp_partition_read size true]
          match env.hostByName (hostname self) with
          | none => ⟨self, .DnsFailed, loaded ++ [.hostByName (hostname self) false, .free]⟩
          | some ip =>
            if env.connect ip (port self) = false then
              ⟨self, .ConnectFailed,
                loaded ++ [.hostByName (hostname self) true, .connect ip (port self) false, .free]⟩
            else
              ⟨self, .Sent (response env),
                loaded ++ [.hostByName (hostname self) true, .connect ip (port self) true] ++
                  exchange self env size⟩

/-- Lines 34-38: the polls of `WiFi.status()` that find no connection, each
followed by `delay(500)`; `left` is `20 - retryCount`. -/
def waitForWifi (env : Env) : Nat → Nat → List Event
  | 0, _ => []
  | left + 1, retryCount =>
    if env.wifiConnected retryCount then []
    else .delay 500 :: waitForWifi env left (retryCount + 1)

/-- Lines 19-28: the device id after the check of `begin`. -/
def deviceIdAfterBegin (self : ESP32CrashUploader) (env : Env) : List Byte :=
  match self._deviceId with
  | none => (List.finRange 6).flatMap fun i => hex02X (env.mac i)
  | some [] => (List.finRange 6).flatMap fun i => hex02X (env.mac i)
  | some (c :: cs) => c :: cs

/-- Lines 18-50. -/
def begin (self : ESP32CrashUploader) (wifiSsid wifiPassword : List Byte) (env : Env) : Run :=
  let self1 : ESP32CrashUploader := { self with _deviceId := some (deviceIdAfterBegin self env) }
  let derive : List Event :=
    match self._deviceId with
    | none => [.esp_read_mac]
    | some [] => [.esp_read_mac]
    | some (_ :: _) => []
  let run := tryUpload self1 env
  ⟨run.self, run.terminal,
    derive ++ [.wifi_mode, .wifi_begin wifiSsid wifiPassword] ++ waitForWifi env 20 0 ++ run.trace⟩

/-! ## Vocabulary of the statements -/

/-- Calls that touch the coredump storage. -/
def Event.isStorage : Event → Bool
  | .esp_core_dump_image_get _ => true
  | .esp_partition_find_first _ => true
  | .esp_partition_read _ _ => true
  | _ => false

/-- Calls to the allocators. -/
def Event.isAllocation : Event → Bool
  | .ps_malloc _ _ => true
  | .heap_caps_malloc _ _ => true
  | .free => true
  | _ => false

/-- Calls to WiFi, DNS or the TCP client. -/
def Event.isNetwork : Event → Bool
  | .wifi_mode => true
  | .wifi_begin _ _ => true
  | .hostByName _ _ => true
  | .connect _ _ _ => true
  | .print _ => true
  | .write _ _ => true
  | .readStringUntil _ => true
  | .readString _ => true
  | .stop => true
  | _ => false

/-- A request byte handed to the transport. -/
def Event.isRequestWrite : Event → Bool
  | .print _ => true
  | .write _ _ => true
  | _ => false

/-- A call that returned a buffer. -/
def Event.isAcquire : Event → Bool
  | .ps_malloc _ true => true
  | .heap_caps_malloc _ true => true
  | _ => false

/-- A call whose result makes the attempt stop: the probe, the lookup, the
fallback allocator, the read, the resolver or the connect reporting failure. -/
def Event.failed : Event → Bool
  | .esp_core_dump_image_get false => true
  | .esp_partition_find_first false => true
  | .heap_caps_malloc _ false => true
  | .esp_partition_read _ false => true
  | .hostByName _ false => true
  | .connect _ _ false => true
  | _ => false

/-- The bytes of a call that the transport took: a `print` in full (the code
never looks at what `print` returns), a `write` up to the count it returned. -/
def Event.sent : Event → List Byte
  | .print text => text
  | .write buffer accepted => buffer.take accepted
  | _ => []

/-- Everything the transport took along a trace, in order. -/
def wire (t : List Event) : List Byte := t.flatMap Event.sent

/-- The call `client.write(buffer, size)`. -/
def Event.isWrite : Event → Bool
  | .write _ _ => true
  | _ => false

/-- Number of buffers acquired along a trace. -/
def acquisitions (t : List Event) : Nat := t.countP Event.isAcquire

/-- Number of `free(buffer)` calls along a trace. -/
def releases (t : List Event) : Nat := t.count Event.free

/-- The stages of one attempt. -/
inductive Stage where
  | resetReason
  | dumpProbe
  | partitionLookup
  | allocation
  | partitionRead
  | dnsResolve
  | connect
  | send
  | readResponse
deriving DecidableEq, Repr

/-- The order the specification gives the stages. -/
def Stage.order : List Stage :=
  [.resetReason, .dumpProbe, .partitionLookup, .allocation, .partitionRead, .dnsResolve,
   .connect, .send, .readResponse]

/-- The stage a call belongs to; `free` and `stop` are clean-up and belong to
none. -/
def Event.stage : Event → Option Stage
  | .esp_reset_reason => some .resetReason
  | .esp_core_dump_image_get _ => some .dumpProbe
  | .esp_partition_find_first _ => some .partitionLookup
  | .ps_malloc _ _ => some .allocation
  | .heap_caps_malloc _ _ => some .allocation
  | .esp_partition_read _ _ => some .partitionRead
  | .hostByName _ _ => some .dnsResolve
  | .connect _ _ _ => some .connect
  | .print _ => some .send
  | .write _ _ => some .send
  | .readStringUntil _ => some .readResponse
  | .readString _ => some .readResponse
  | _ => none

/-- A list with each run of equal neighbours merged into one entry. -/
def mergeRuns : List Stage → List Stage
  | [] => []
  | a :: rest =>
    match rest with
    | [] => [a]
    | b :: _ => if a = b then mergeRuns rest else a :: mergeRuns rest

/-- The stages a trace went through, in the order it entered them. -/
def stagesOf (t : List Event) : List Stage := mergeRuns (t.filterMap Event.stage)

theorem allocate_cases (env : Env) (size : Nat) :
    allocate env size = ([.ps_malloc size true], true) ∨
    allocate env size = ([.ps_malloc size false, .heap_caps_malloc size true], true) ∨
    allocate env size = ([.ps_malloc size false, .heap_caps_malloc size false], false) := by
  unfold allocate
  split
  · exact Or.inl rfl
  · split
    · exact Or.inr (Or.inl rfl)
    · exact Or.inr (Or.inr rfl)

/-- The eight ways through `tryUpload`, each with the answers that select it
and the run it produces. -/
theorem tryUpload_cases (self : ESP32CrashUploader) (env : Env) :
    ((env.reset_reason = .ESP_RST_SW ∨ env.reset_reason = .ESP_RST_POWERON) ∧
      tryUpload self env = ⟨self, .Skipped, [.esp_reset_reason]⟩) ∨
    (¬(env.reset_reason = .ESP_RST_SW ∨ env.reset_reason = .ESP_RST_POWERON) ∧
      ((env.core_dump_image = none ∧
        tryUpload self env =
          ⟨self, .NoDump, [.esp_reset_reason, .esp_core_dump_image_get false]⟩) ∨
      ∃ addr size, env.core_dump_image = some (addr, size) ∧
        ((env.partition = none ∧
          tryUpload self env =
            ⟨self, .NoDump, [.esp_reset_reason, .esp_core_dump_image_get true,
              .esp_partition_find_first false]⟩) ∨
        ∃ part, env.partition = some part ∧
          (((allocate env size).2 = false ∧
            tryUpload self env =
              ⟨self, .AllocFailed, [.esp_reset_reason, .esp_core_dump_image_get true,
                .esp_partition_find_first true] ++ (allocate env size).1⟩) ∨
          ((allocate env size).2 = true ∧
            ((env.partition_read size = false ∧
              tryUpload self env =
                ⟨self, .ReadFailed, [.esp_reset_reason, .esp_core_dump_image_get true,
                  .esp_partition_find_first true] ++ (allocate env size).1 ++
                  [.esp_partition_read size false, .free]⟩) ∨
            (env.partition_read size = true ∧
              ((env.hostByName (hostname self) = none ∧
                tryUpload self env =
                  ⟨self, .DnsFailed, [.esp_reset_reason, .esp_core_dump_image_get true,
                    .esp_partition_find_first true] ++ (allocate env size).1 ++
                    [.esp_partition_read size true] ++
                    [.hostByName (hostname self) false, .free]⟩) ∨
              ∃ ip, env.hostByName (hostname self) = some ip ∧
                ((env.connect ip (port self) = false ∧
                  tryUpload self env =
                    ⟨self, .ConnectFailed, [.esp_reset_reason, .esp_core_dump_image_get true,
                      .esp_partition_find_first true] ++ (allocate env size).1 ++
                      [.esp_partition_read size true] ++
                      [.hostByName (hostname self) true, .connect ip (port self) false,
                        .free]⟩) ∨
                (env.connect ip (port self) = true ∧
                  tryUpload self env =
                    ⟨self, .Sent (response env), [.esp_reset_reason,
                      .esp_core_dump_image_get true,
                      .esp_partition_find_first true] ++ (allocate env size).1 ++
                      [.esp_partition_read size true] ++
                      [.hostByName (hostname self) true, .connect ip (port self) true] ++
                      exchange self env size⟩)))))))))) := by
  by_cases h : env.reset_reason = .ESP_RST_SW ∨ env.reset_reason = .ESP_RST_POWERON
  · exact Or.inl ⟨h, by simp [tryUpload, h]⟩
  · refine Or.inr ⟨h, ?_⟩
    cases hc : env.core_dump_image with
    | none => exact Or.inl ⟨rfl, by simp [tryUpload, h, hc]⟩
    | some img =>
      obtain ⟨addr, size⟩ := img
      refine Or.inr ⟨addr, size, rfl, ?_⟩
      cases hp : env.partition with
      | none => exact Or.inl ⟨rfl, by simp [tryUpload, h, hc, hp]⟩
      | some part =>
        refine Or.inr ⟨part, rfl, ?_⟩
        cases ha : (allocate env size).2 with
        | false => exact Or.inl ⟨rfl, by simp [tryUpload, h, hc, hp, ha]⟩
        | true =>
          refine Or.inr ⟨rfl, ?_⟩
          cases hr : env.partition_read size with
          | false => exact Or.inl ⟨rfl, by simp [tryUpload, h, hc, hp, ha, hr]⟩
          | true =>
            refine Or.inr ⟨rfl, ?_⟩
            cases hd : env.hostByName (hostname self) with
            | none => exact Or.inl ⟨rfl, by simp [tryUpload, h, hc, hp, ha, hr, hd]⟩
            | some ip =>
              refine Or.inr ⟨ip, rfl, ?_⟩
              cases hk : env.connect ip (port self) with
              | false => exact Or.inl ⟨rfl, by simp [tryUpload, h, hc, hp, ha, hr, hd, hk]⟩
              | true => exact Or.inr ⟨rfl, by simp [tryUpload, h, hc, hp, ha, hr, hd, hk]⟩
/-- Whether a byte is one of `0-9`, `A-F`. -/
def isUpperHex (b : Byte) : Bool := (48 ≤ b.val && b.val ≤ 57) || (65 ≤ b.val && b.val ≤ 70)

/-- Value of an upper-case hexadecimal digit. -/
def hexValue (b : Byte) : Nat := if b.val ≤ 57 then b.val - 48 else b.val - 55

/-- The bytes spelled by consecutive pairs of hexadecimal digits. -/
def unhex : List Byte → List Nat
  | a :: b :: rest => (16 * hexValue a + hexValue b) :: unhex rest
  | _ => []

/-- The number a text of decimal digits denotes. -/
def decimalValue : List Byte → Nat
  | [] => 0
  | d :: ds => (d.val - 48) * 10 ^ ds.length + decimalValue ds

/-! ## A multipart reader

The specification's round-trip property re-decodes the body "by
boundary-splitting", "per multipart convention". The repository has no decoder;
the definitions below follow that convention: the delimiter is CRLF, two
hyphens and the boundary; the first delimiter may omit its CRLF; a part is a
header block, an empty line and the content, and the content ends where the
next delimiter begins; the delimiter followed by two hyphens closes the body. -/

/-- The first occurrence of `delim` in a text: what is before it and what is
after it. -/
def breakOn {α : Type} [DecidableEq α] (delim : List α) : List α → Option (List α × List α)
  | [] => none
  | c :: cs =>
    if startsWith delim (c :: cs) then some ([], (c :: cs).drop delim.length)
    else
      match breakOn delim cs with
      | some (before, after) => some (c :: before, after)
      | none => none

/-- The pieces between the occurrences of `delim`, found left to right; `fuel`
bounds the number of occurrences looked for. -/
def splitOn {α : Type} [DecidableEq α] (delim : List α) : Nat → List α → List (List α)
  | 0, s => [s]
  | fuel + 1, s =>
    match breakOn delim s with
    | none => [s]
    | some (before, after) => before :: splitOn delim fuel after

/-- The delimiter between parts. -/
def delimiter : List Byte := CRLF ++ ascii "--" ++ boundary

/-- The pieces of a multipart body: the body, with the CRLF its first delimiter
omits put in front, split at every delimiter (there are at most as many as
bytes). -/
def boundarySplit (body : List Byte) : List (List Byte) :=
  splitOn delimiter (body.length + 3) (CRLF ++ body)

/-- The pieces up to the one that opens with `--`, which comes from the close
delimiter. -/
def partsUntilClose : List (List Byte) → List (List Byte)
  | [] => []
  | piece :: rest =>
    if startsWith (ascii "--") piece then [] else piece :: partsUntilClose rest

/-- The parts of a multipart body: the pieces after the preamble and before the
close delimiter. -/
def multipartParts (body : List Byte) : List (List Byte) :=
  partsUntilClose (boundarySplit body).tail

/-- The header block and the content of a part: what is before and after its
first empty line. -/
def headersAndContent (part : List Byte) : Option (List Byte × List Byte) :=
  breakOn (CRLF ++ CRLF) part

/-- The `name` parameter in a header block: the text between the first
`name="` and the next `"`. -/
def partName (headers : List Byte) : Option (List Byte) :=
  match breakOn (ascii "name=\"") headers with
  | some (_, after) => some (readStringUntil 34 after).1
  | none => none

/-- The content of the first part with the given name. -/
def contentNamed (name : List Byte) : List (List Byte) → Option (List Byte)
  | [] => none
  | part :: rest =>
    match headersAndContent part with
    | some (headers, content) =>
      if partName headers = some name then some content else contentNamed name rest
    | none => contentNamed name rest

/-- The attachment a receiver reads out of a body: the content of the part
named `coredump`. -/
def decodeCoredump (body : List Byte) : Option (List Byte) :=
  contentNamed (ascii "coredump") (multipartParts body)

/-- The header block of a text part as the reader sees it: the CRLF that ends
the delimiter line, then the `Content-Disposition` line without its CRLF. -/
def fieldHeaders (name : String) : List Byte :=
  CRLF ++ ascii "Content-Disposition: form-data; name=\"" ++ ascii name ++ ascii "\""

/-- The header block of the attachment part as the reader sees it. -/
def coredumpHeaders : List Byte :=
  CRLF ++ ascii "Content-Disposition: form-data; name=\"coredump\"; filename=\"coredump.bin\"" ++
    CRLF ++ ascii "Content-Type: application/octet-stream"

/-! ## Sample inputs -/

/-- An uploader with every field set. -/
def sampleUploader : ESP32CrashUploader where
  _serverUrl := ascii "http://example.com:8080/upload"
  _firmwareVersion := ascii "1.0.0"
  _project := ascii "demo"
  _deviceId := some (ascii "dev-1")
  _fqbn := ascii "esp32:esp32:esp32"
  _authToken := some (ascii "secret")

/-- The scenario of the specification: reset after a panic, a dump of 128 bytes
`0x00..0x7F`, every collaborator succeeds, the server answers
`HTTP/1.1 200 OK\r\n\r\nOK`. -/
def sampleEnv : Env where
  mac := fun i => Fin.ofNat (16 * i.val + 10)
  wifiConnected := fun _ => true
  reset_reason := .ESP_RST_PANIC
  core_dump_image := some (1114112, 128)
  partition := some (1114112, 65536)
  ps_malloc := fun _ => true
  heap_caps_malloc := fun _ => true
  partition_read := fun _ => true
  flash := fun i => Fin.ofNat i
  hostByName := fun _ => some 1
  connect := fun _ _ => true
  client_write := fun buffer => buffer.length
  linkUp := 8
  rx := ascii "HTTP/1.1 200 OK\r\n\r\nOK"

/-- As `sampleEnv`, with a dump of `2^31` bytes. -/
def wrapEnv : Env := { sampleEnv with core_dump_image := some (1114112, 2147483648) }

/-- As `sampleEnv`, but `client.connected()` already answers false when the
loop of line 258 starts. -/
def closedEnv : Env := { sampleEnv with linkUp := 0 }

/-- As `sampleEnv`, but the server answers `404 Not Found`. -/
def notFoundEnv : Env := { sampleEnv with rx := ascii "HTTP/1.1 404 Not Found\r\n\r\nOK" }

/-- As `sampleEnv`, but the answer has two header lines, the second being the
three bytes CR, NUL, `Y`. -/
def nulLineEnv : Env :=
  { sampleEnv with
    rx := ascii "HTTP/1.1 200 OK\r\nX: 1\r\n" ++ [13, 0, 89] ++ ascii "\r\n\r\nOK" }

/-- As `sampleEnv`, after a software restart. -/
def restartEnv : Env := { sampleEnv with reset_reason := .ESP_RST_SW }

/-- As `sampleEnv`, with a resolver that fails. -/
def noDnsEnv : Env := { sampleEnv with hostByName := fun _ => none }

/-- As `sampleUploader`, without a device id. -/
def anonymousUploader : ESP32CrashUploader := { sampleUploader with _deviceId := none }

/-! ## Control flow -/

/-- C1: `tryUpload` ends in `Skipped` exactly when the reset reason is
`ESP_RST_SW` or `ESP_RST_POWERON`. When it does, the reset-reason query is its
only call (no storage, allocation or network call) and the object is unchanged,
so a second call under a software restart ends in `Skipped` again with the same
single query. For every other reset reason the next call is the dump probe. -/
theorem C1_skip_iff_sw_or_poweron (self : ESP32CrashUploader) (env : Env) :
    ((tryUpload self env).terminal = .Skipped ↔
      (env.reset_reason = .ESP_RST_SW ∨ env.reset_reason = .ESP_RST_POWERON)) ∧
    ((tryUpload self env).terminal = .Skipped →
      (tryUpload self env).trace = [.esp_reset_reason] ∧
      (∀ e ∈ (tryUpload self env).trace,
        e.isStorage = false ∧ e.isAllocation = false ∧ e.isNetwork = false) ∧
      (tryUpload self env).self = self) ∧
    (env.reset_reason = .ESP_RST_SW →
      (tryUpload self env).terminal = .Skipped ∧
      (tryUpload (tryUpload self env).self env).terminal = .Skipped ∧
      (tryUpload (tryUpload self env).self env).trace = [.esp_reset_reason] ∧
      (tryUpload (tryUpload self env).self env).self = self) ∧
    ((tryUpload self env).terminal ≠ .Skipped →
      ∃ ok, (tryUpload self env).trace.take 2 =
        [.esp_reset_reason, .esp_core_dump_image_get ok]) := by
  rcases tryUpload_cases self env with ⟨h, hrun⟩ | ⟨h, ⟨_, hrun⟩ | ⟨addr, size, _, ⟨_, hrun⟩ |
    ⟨part, _, ⟨_, hrun⟩ | ⟨_, ⟨_, hrun⟩ | ⟨_, ⟨_, hrun⟩ | ⟨ip, _, ⟨_, hrun⟩ | ⟨_, hrun⟩⟩⟩⟩⟩⟩⟩
  · simp [hrun, h, Event.isStorage, Event.isAllocation, Event.isNetwork]
  all_goals
    have hsw : env.reset_reason ≠ .ESP_RST_SW := fun h1 => h (Or.inl h1)
    have hpo : env.reset_reason ≠ .ESP_RST_POWERON := fun h1 => h (Or.inr h1)
    simp [hrun, hsw, hpo]

theorem acquisitions_nil : acquisitions [] = 0 := rfl

theorem acquisitions_cons (e : Event) (t : List Event) :
    acquisitions (e :: t) = acquisitions t + (if e.isAcquire = true then 1 else 0) := by
  simp [acquisitions, List.countP_cons]

theorem acquisitions_append (a b : List Event) :
    acquisitions (a ++ b) = acquisitions a + acquisitions b := by
  simp [acquisitions]

theorem releases_nil : releases [] = 0 := rfl

theorem releases_cons (e : Event) (t : List Event) :
    releases (e :: t) = releases t + (if e = .free then 1 else 0) := by
  simp only [releases, List.count_cons, beq_iff_eq]

theorem releases_append (a b : List Event) : releases (a ++ b) = releases a + releases b := by
  simp [releases]

theorem acquisitions_map_print (l : List (List Byte)) : acquisitions (l.map Event.print) = 0 := by
  induction l with
  | nil => rfl
  | cons a l ih => simp [acquisitions_cons, Event.isAcquire, ih]

theorem acquisitions_map_readStringUntil (l : List (List Byte)) :
    acquisitions (l.map Event.readStringUntil) = 0 := by
  induction l with
  | nil => rfl
  | cons a l ih => simp [acquisitions_cons, Event.isAcquire, ih]

theorem releases_map_print (l : List (List Byte)) : releases (l.map Event.print) = 0 := by
  induction l with
  | nil => rfl
  | cons a l ih => simp [releases_cons, ih]

theorem releases_map_readStringUntil (l : List (List Byte)) :
    releases (l.map Event.readStringUntil) = 0 := by
  induction l with
  | nil => rfl
  | cons a l ih => simp [releases_cons, ih]

theorem acquisitions_allocate (env : Env) (size : Nat) :
    acquisitions (allocate env size).1 = if (allocate env size).2 = true then 1 else 0 := by
  rcases allocate_cases env size with h | h | h <;>
    simp [h, acquisitions_cons, acquisitions_nil, Event.isAcquire]

theorem releases_allocate (env : Env) (size : Nat) : releases (allocate env size).1 = 0 := by
  rcases allocate_cases env size with h | h | h <;> simp [h, releases_cons, releases_nil]

theorem acquisitions_exchange (self : ESP32CrashUploader) (env : Env) (size : Nat) :
    acquisitions (exchange self env size) = 0 := by
  simp [exchange, acquisitions_append, acquisitions_cons, acquisitions_nil,
    acquisitions_map_print, acquisitions_map_readStringUntil, Event.isAcquire]

theorem releases_exchange (self : ESP32CrashUploader) (env : Env) (size : Nat) :
    releases (exchange self env size) = 1 := by
  simp [exchange, releases_append, releases_cons, releases_nil,
    releases_map_print, releases_map_readStringUntil]

theorem getLast?_of_eq_concat_free (t pre : List Event) (h : t = pre ++ [.free]) :
    t.getLast? = some .free := by
  subst h
  simp

theorem exchange_eq_concat_free (self : ESP32CrashUploader) (env : Env) (size : Nat) :
    ∃ pre, exchange self env size = pre ++ [.free] :=
  ⟨(requestHead self size).map Event.print ++
    [.print (bodyStart self),
     .write (readBuffer env size) (env.client_write (readBuffer env size)),
     .print bodyEnd] ++
    (readHeaders env.linkUp env.rx).1.map Event.readStringUntil ++
    [.readString (response env), .stop], by simp [exchange]⟩

/-- C4: along every run of `tryUpload`, whatever the collaborators answer, the
number of buffers acquired equals the number of `free` calls, and both are at
most one. On the exits after a read failure, a DNS failure, a connect failure
and at the end (Sent) exactly one buffer was acquired and `free` is the last
call; on the exits before a buffer exists (Skipped, NoDump, AllocFailed)
nothing is acquired and nothing is freed. -/
theorem C4_acquire_release_balance (self : ESP32CrashUploader) (env : Env) :
    acquisitions (tryUpload self env).trace = releases (tryUpload self env).trace ∧
    releases (tryUpload self env).trace ≤ 1 ∧
    (((tryUpload self env).terminal = .ReadFailed ∨ (tryUpload self env).terminal = .DnsFailed ∨
        (tryUpload self env).terminal = .ConnectFailed ∨
        ∃ r, (tryUpload self env).terminal = .Sent r) →
      acquisitions (tryUpload self env).trace = 1 ∧ releases (tryUpload self env).trace = 1 ∧
      (tryUpload self env).trace.getLast? = some .free) ∧
    (((tryUpload self env).terminal = .Skipped ∨ (tryUpload self env).terminal = .NoDump ∨
        (tryUpload self env).terminal = .AllocFailed) →
      acquisitions (tryUpload self env).trace = 0 ∧ releases (tryUpload self env).trace = 0) := by
  rcases tryUpload_cases self env with ⟨_, hrun⟩ | ⟨_, ⟨_, hrun⟩ | ⟨addr, size, _, ⟨_, hrun⟩ |
    ⟨part, _, ⟨ha, hrun⟩ | ⟨ha, ⟨_, hrun⟩ | ⟨_, ⟨_, hrun⟩ | ⟨ip, _, ⟨_, hrun⟩ | ⟨_, hrun⟩⟩⟩⟩⟩⟩⟩
  · simp [hrun, acquisitions_cons, acquisitions_nil, releases_cons, releases_nil,
      Event.isAcquire]
  · simp [hrun, acquisitions_cons, acquisitions_nil, releases_cons, releases_nil,
      Event.isAcquire]
  · simp [hrun, acquisitions_cons, acquisitions_nil, releases_cons, releases_nil,
      Event.isAcquire]
  · simp [hrun, acquisitions_append, acquisitions_cons, acquisitions_nil, releases_append,
      releases_cons, releases_nil, acquisitions_allocate, releases_allocate, ha, Event.isAcquire]
  · have hl := getLast?_of_eq_concat_free (tryUpload self env).trace
      ([.esp_reset_reason, .esp_core_dump_image_get true, .esp_partition_find_first true] ++
        (allocate env size).1 ++ [.esp_partition_read size false]) (by simp [hrun])
    rw [hl]
    simp [hrun, acquisitions_append, acquisitions_cons, acquisitions_nil, releases_append,
      releases_cons, releases_nil, acquisitions_allocate, releases_allocate, ha, Event.isAcquire]
  · have hl := getLast?_of_eq_concat_free (tryUpload self env).trace
      ([.esp_reset_reason, .esp_core_dump_image_get true, .esp_partition_find_first true] ++
        (allocate env size).1 ++ [.esp_partition_read size true] ++
        [.hostByName (hostname self) false]) (by simp [hrun])
    rw [hl]
    simp [hrun, acquisitions_append, acquisitions_cons, acquisitions_nil, releases_append,
      releases_cons, releases_nil, acquisitions_allocate, releases_allocate, ha, Event.isAcquire]
  · have hl := getLast?_of_eq_concat_free (tryUpload self env).trace
      ([.esp_reset_reason, .esp_core_dump_image_get true, .esp_partition_find_first true] ++
        (allocate env size).1 ++ [.esp_partition_read size true] ++
        [.hostByName (hostname self) true, .connect ip (port self) false]) (by simp [hrun])
    rw [hl]
    simp [hrun, acquisitions_append, acquisitions_cons, acquisitions_nil, releases_append,
      releases_cons, releases_nil, acquisitions_allocate, releases_allocate, ha, Event.isAcquire]
  · obtain ⟨pre, hpre⟩ := exchange_eq_concat_free self env size
    have hl := getLast?_of_eq_concat_free (tryUpload self env).trace
      ([.esp_reset_reason, .esp_core_dump_image_get true, .esp_partition_find_first true] ++
        (allocate env size).1 ++ [.esp_partition_read size true] ++
        [.hostByName (hostname self) true, .connect ip (port self) true] ++ pre)
      (by simp [hrun, hpre])
    rw [hl]
    simp [hrun, acquisitions_append, acquisitions_cons, acquisitions_nil, releases_append,
      releases_cons, releases_nil, acquisitions_allocate, releases_allocate, ha, Event.isAcquire,
      acquisitions_exchange, releases_exchange]

theorem mergeRuns_cons_cons_same (a : Stage) (l : List Stage) :
    mergeRuns (a :: a :: l) = mergeRuns (a :: l) := by
  simp [mergeRuns]

theorem mergeRuns_cons_cons_ne (a b : Stage) (l : List Stage) (h : a ≠ b) :
    mergeRuns (a :: b :: l) = a :: mergeRuns (b :: l) := by
  simp [mergeRuns, h]

theorem mergeRuns_replicate_append (a : Stage) (n : Nat) (l : List Stage) :
    mergeRuns (List.replicate n a ++ a :: l) = mergeRuns (a :: l) := by
  induction n with
  | zero => rfl
  | succ n ih =>
    cases n with
    | zero => simpa [List.replicate] using mergeRuns_cons_cons_same a l
    | succ m =>
      rw [List.replicate_succ, List.cons_append, List.replicate_succ, List.cons_append,
        mergeRuns_cons_cons_same]
      rw [List.replicate_succ, List.cons_append] at ih
      exact ih

theorem filterMap_stage_map_print (l : List (List Byte)) :
    (l.map Event.print).filterMap Event.stage = List.replicate l.length Stage.send := by
  induction l with
  | nil => rfl
  | cons a l ih => simp [List.filterMap_cons, Event.stage, ih, List.replicate_succ]

theorem filterMap_stage_map_readStringUntil (l : List (List Byte)) :
    (l.map Event.readStringUntil).filterMap Event.stage =
      List.replicate l.length Stage.readResponse := by
  induction l with
  | nil => rfl
  | cons a l ih => simp [List.filterMap_cons, Event.stage, ih, List.replicate_succ]

theorem filterMap_stage_allocate_ne_nil (env : Env) (size : Nat) :
    ∃ n, (allocate env size).1.filterMap Event.stage =
      List.replicate n Stage.allocation ++ [Stage.allocation] := by
  rcases allocate_cases env size with h | h | h
  · exact ⟨0, by simp [h, Event.stage]⟩
  · exact ⟨1, by simp [h, Event.stage, List.replicate]⟩
  · exact ⟨1, by simp [h, Event.stage, List.replicate]⟩

theorem failed_allocate (env : Env) (size : Nat) (h : (allocate env size).2 = true) :
    ∀ e ∈ (allocate env size).1, e.failed = false := by
  rcases allocate_cases env size with h1 | h1 | h1 <;> simp [h1, Event.failed] at h ⊢

theorem pairwise_of_not_failed (l : List Event) (h : ∀ e ∈ l, e.failed = false) :
    l.Pairwise (fun a b => a.failed = true → b = .free) := by
  refine List.pairwise_of_forall_mem_list ?_
  intro a ha b _ hf
  rw [h a ha] at hf
  cases hf

theorem mergeRuns_cons_run (a b : Stage) (n : Nat) (l : List Stage) (h : a ≠ b) :
    mergeRuns (a :: (List.replicate n b ++ b :: l)) = a :: mergeRuns (b :: l) := by
  cases n with
  | zero => simpa using mergeRuns_cons_cons_ne a b l h
  | succ m =>
    rw [List.replicate_succ, List.cons_append, mergeRuns_cons_cons_ne _ _ _ h,
      ← List.cons_append, ← List.replicate_succ, mergeRuns_replicate_append]

theorem mergeRuns_singleton (a : Stage) : mergeRuns [a] = [a] := rfl

theorem filterMap_stage_exchange (self : ESP32CrashUploader) (env : Env) (size : Nat) :
    (exchange self env size).filterMap Event.stage =
      List.replicate (requestHead self size).length Stage.send ++ Stage.send ::
        Stage.send :: Stage.send ::
        (List.replicate (readHeaders env.linkUp env.rx).1.length Stage.readResponse ++
          Stage.readResponse :: []) := by
  unfold exchange
  rw [List.filterMap_append, List.filterMap_append, List.filterMap_append,
    filterMap_stage_map_print, filterMap_stage_map_readStringUntil]
  simp [Event.stage]

theorem pairwise_halt (pre : List Event) (e : Event) (post : List Event)
    (hpre : ∀ x ∈ pre, x.failed = false) (hpost : ∀ x ∈ post, x = .free) :
    (pre ++ e :: post).Pairwise (fun a b => a.failed = true → b = .free) := by
  rw [List.pairwise_append]
  refine ⟨pairwise_of_not_failed pre hpre, ?_, ?_⟩
  · rw [List.pairwise_cons]
    refine ⟨fun b hb _ => hpost b hb, pairwise_of_not_failed post ?_⟩
    intro x hx
    rw [hpost x hx]
    rfl
  · intro a ha b _ hf
    rw [hpre a ha] at hf
    cases hf

theorem stage_exchange (self : ESP32CrashUploader) (env : Env) (size : Nat) :
    ∀ e ∈ exchange self env size, e.stage ≠ some .connect ∧ e.failed = false := by
  intro e he
  simp only [exchange, List.mem_append, List.mem_map, List.mem_cons, List.mem_singleton,
    List.not_mem_nil, or_false] at he
  rcases he with ((⟨_, _, rfl⟩ | rfl | rfl | rfl) | ⟨_, _, rfl⟩) | rfl | rfl | rfl <;>
    simp [Event.stage, Event.failed]

/-- C5: the stages a run of `tryUpload` enters are an initial segment of reset
reason, dump probe, partition lookup, allocation, partition read, DNS resolve,
connect, send, read response: in that order, none entered twice, none skipped.
After a call that reports failure (the dump probe, the partition lookup, the
fallback allocator, the partition read, the resolver or the connect) nothing
follows but `free`. If the dump probe
fails or there is no coredump partition the run ends in `NoDump` and no
allocator is called; if the resolver fails the run ends in `DnsFailed` and no
connect is made; if the connect fails the run ends in `ConnectFailed` and no
request byte is handed to the transport. -/
theorem C5_stages_in_order (self : ESP32CrashUploader) (env : Env) :
    (∃ n, stagesOf (tryUpload self env).trace = Stage.order.take n) ∧
    (tryUpload self env).trace.Pairwise (fun a b => a.failed = true → b = .free) ∧
    ((tryUpload self env).terminal ≠ .Skipped →
      (env.core_dump_image = none ∨ env.partition = none) →
      (tryUpload self env).terminal = .NoDump ∧
      ∀ e ∈ (tryUpload self env).trace, e.isAllocation = false) ∧
    (∀ name, Event.hostByName name false ∈ (tryUpload self env).trace →
      (tryUpload self env).terminal = .DnsFailed ∧
      ∀ e ∈ (tryUpload self env).trace, e.stage ≠ some .connect) ∧
    (∀ ip port, Event.connect ip port false ∈ (tryUpload self env).trace →
      (tryUpload self env).terminal = .ConnectFailed ∧
      ∀ e ∈ (tryUpload self env).trace, e.isRequestWrite = false) := by
  rcases tryUpload_cases self env with ⟨_, hrun⟩ | ⟨_, ⟨hc, hrun⟩ | ⟨addr, size, hc, ⟨hp, hrun⟩ |
    ⟨part, hp, ⟨ha, hrun⟩ | ⟨ha, ⟨_, hrun⟩ | ⟨_, ⟨_, hrun⟩ | ⟨ip, _, ⟨_, hrun⟩ | ⟨_, hrun⟩⟩⟩⟩⟩⟩⟩
  · refine ⟨⟨1, by simp [hrun, stagesOf, Event.stage, mergeRuns, Stage.order]⟩, ?_, ?_, ?_, ?_⟩ <;>
      simp [hrun]
  · refine ⟨⟨2, by simp [hrun, stagesOf, Event.stage, mergeRuns, Stage.order]⟩, ?_, ?_, ?_, ?_⟩ <;>
      simp [hrun, Event.failed, Event.isAllocation]
  · refine ⟨⟨3, by simp [hrun, stagesOf, Event.stage, mergeRuns, Stage.order]⟩, ?_, ?_, ?_, ?_⟩ <;>
      simp [hrun, Event.failed, Event.isAllocation]
  · obtain ⟨n, hn⟩ := filterMap_stage_allocate_ne_nil env size
    refine ⟨⟨4, ?_⟩, ?_, ?_, ?_, ?_⟩
    · simp only [hrun, stagesOf, List.filterMap_append, hn]
      simp [Event.stage, mergeRuns_cons_cons_ne, mergeRuns_cons_run, mergeRuns_singleton,
        Stage.order]
    · rcases allocate_cases env size with h1 | h1 | h1 <;>
        simp [hrun, h1, Event.failed] at ha ⊢
    · simp [hrun, hc, hp]
    · rcases allocate_cases env size with h1 | h1 | h1 <;> simp [hrun, h1]
    · rcases allocate_cases env size with h1 | h1 | h1 <;> simp [hrun, h1]
  · obtain ⟨n, hn⟩ := filterMap_stage_allocate_ne_nil env size
    have hf := failed_allocate env size ha
    refine ⟨⟨5, ?_⟩, ?_, ?_, ?_, ?_⟩
    · simp only [hrun, stagesOf, List.filterMap_append, hn]
      simp [Event.stage, mergeRuns_cons_cons_ne, mergeRuns_cons_run, mergeRuns_singleton,
        Stage.order]
    · have := pairwise_halt ([.esp_reset_reason, .esp_core_dump_image_get true,
        .esp_partition_find_first true] ++ (allocate env size).1)
        (.esp_partition_read size false) [.free]
        (by
          intro x hx
          simp only [List.mem_append, List.mem_cons, List.not_mem_nil, or_false] at hx
          rcases hx with (rfl | rfl | rfl) | hx
          · rfl
          · rfl
          · rfl
          · exact hf x hx)
        (by simp)
      simpa [hrun] using this
    · simp [hrun, hc, hp]
    · rcases allocate_cases env size with h1 | h1 | h1 <;> simp [hrun, h1]
    · rcases allocate_cases env size with h1 | h1 | h1 <;> simp [hrun, h1]
  · obtain ⟨n, hn⟩ := filterMap_stage_allocate_ne_nil env size
    have hf := failed_allocate env size ha
    refine ⟨⟨6, ?_⟩, ?_, ?_, ?_, ?_⟩
    · simp only [hrun, stagesOf, List.filterMap_append, hn]
      simp [Event.stage, mergeRuns_cons_cons_ne, mergeRuns_cons_run, mergeRuns_singleton,
        Stage.order]
    · have := pairwise_halt ([.esp_reset_reason, .esp_core_dump_image_get true,
        .esp_partition_find_first true] ++ (allocate env size).1 ++
        [.esp_partition_read size true])
        (.hostByName (hostname self) false) [.free]
        (by
          intro x hx
          simp only [List.mem_append, List.mem_cons, List.not_mem_nil, or_false] at hx
          rcases hx with ((rfl | rfl | rfl) | hx) | rfl
          · rfl
          · rfl
          · rfl
          · exact hf x hx
          · rfl)
        (by simp)
      simpa [hrun] using this
    · simp [hrun, hc, hp]
    · rcases allocate_cases env size with h1 | h1 | h1 <;> simp [hrun, h1, Event.stage]
    · rcases allocate_cases env size with h1 | h1 | h1 <;> simp [hrun, h1]
  · obtain ⟨n, hn⟩ := filterMap_stage_allocate_ne_nil env size
    have hf := failed_allocate env size ha
    refine ⟨⟨7, ?_⟩, ?_, ?_, ?_, ?_⟩
    · simp only [hrun, stagesOf, List.filterMap_append, hn]
      simp [Event.stage, mergeRuns_cons_cons_ne, mergeRuns_cons_run, mergeRuns_singleton,
        Stage.order]
    · have := pairwise_halt ([.esp_reset_reason, .esp_core_dump_image_get true,
        .esp_partition_find_first true] ++ (allocate env size).1 ++
        [.esp_partition_read size true, .hostByName (hostname self) true])
        (.connect ip (port self) false) [.free]
        (by
          intro x hx
          simp only [List.mem_append, List.mem_cons, List.not_mem_nil, or_false] at hx
          rcases hx with ((rfl | rfl | rfl) | hx) | rfl | rfl
          · rfl
          · rfl
          · rfl
          · exact hf x hx
          · rfl
          · rfl)
        (by simp)
      simpa [hrun] using this
    · simp [hrun, hc, hp]
    · rcases allocate_cases env size with h1 | h1 | h1 <;> simp [hrun, h1]
    · rcases allocate_cases env size with h1 | h1 | h1 <;>
        simp [hrun, h1, Event.isRequestWrite]
  · obtain ⟨n, hn⟩ := filterMap_stage_allocate_ne_nil env size
    have hf := failed_allocate env size ha
    have hx := stage_exchange self env size
    refine ⟨⟨9, ?_⟩, ?_, ?_, ?_, ?_⟩
    · simp only [hrun, stagesOf, List.filterMap_append, hn, filterMap_stage_exchange]
      simp [Event.stage, mergeRuns_cons_cons_ne, mergeRuns_cons_run, mergeRuns_singleton,
        mergeRuns_cons_cons_same, Stage.order]
    · refine pairwise_of_not_failed _ ?_
      intro x hx1
      simp only [hrun, List.mem_append, List.mem_cons, List.not_mem_nil, or_false] at hx1
      rcases hx1 with ((((rfl | rfl | rfl) | hx1) | rfl) | rfl | rfl) | hx1
      · rfl
      · rfl
      · rfl
      · exact hf x hx1
      · rfl
      · rfl
      · rfl
      · exact (hx x hx1).2
    · simp [hrun, hc, hp]
    · intro name hmem
      exfalso
      simp only [hrun, List.mem_append, List.mem_cons, List.not_mem_nil, or_false] at hmem
      rcases hmem with (((hmem | hmem) | hmem) | hmem) | hmem
      · simp at hmem
      · have := hf _ hmem
        simp [Event.failed] at this
      · simp at hmem
      · simp at hmem
      · have := (hx _ hmem).2
        simp [Event.failed] at this
    · intro ip1 port1 hmem
      exfalso
      simp only [hrun, List.mem_append, List.mem_cons, List.not_mem_nil, or_false] at hmem
      rcases hmem with (((hmem | hmem) | hmem) | hmem) | hmem
      · simp at hmem
      · have := hf _ hmem
        simp [Event.failed] at this
      · simp at hmem
      · simp at hmem
      · have := (hx _ hmem).2
        simp [Event.failed] at this

/-! ## The request on the wire -/

/-- A run that ends at the final return went through every stage. -/
theorem tryUpload_sent (self : ESP32CrashUploader) (env : Env) (addr size : Nat)
    (resp : List Byte) (himg : env.core_dump_image = some (addr, size))
    (hsent : (tryUpload self env).terminal = .Sent resp) :
    resp = response env ∧
    ∃ ip, (tryUpload self env).trace =
      [.esp_reset_reason, .esp_core_dump_image_get true, .esp_partition_find_first true] ++
        (allocate env size).1 ++ [.esp_partition_read size true] ++
        [.hostByName (hostname self) true, .connect ip (port self) true] ++
        exchange self env size := by
  rcases tryUpload_cases self env with ⟨_, hrun⟩ | ⟨_, ⟨hc, hrun⟩ | ⟨addr1, size1, hc, ⟨hp, hrun⟩ |
    ⟨part, hp, ⟨ha, hrun⟩ | ⟨ha, ⟨_, hrun⟩ | ⟨_, ⟨_, hrun⟩ |
    ⟨ip, _, ⟨_, hrun⟩ | ⟨_, hrun⟩⟩⟩⟩⟩⟩⟩ <;>
  rw [hrun] at hsent <;> simp at hsent
  rw [himg] at hc
  simp only [Option.some.injEq, Prod.mk.injEq] at hc
  obtain ⟨_, rfl⟩ := hc
  exact ⟨hsent.symm, ip, by rw [hrun]⟩

theorem wire_nil : wire [] = [] := rfl

theorem wire_cons (e : Event) (t : List Event) : wire (e :: t) = e.sent ++ wire t := by
  simp [wire]

theorem wire_append (a b : List Event) : wire (a ++ b) = wire a ++ wire b := by
  simp [wire]

theorem wire_map_print (l : List (List Byte)) : wire (l.map Event.print) = l.flatten := by
  induction l with
  | nil => rfl
  | cons a l ih => simp [wire_cons, Event.sent, ih]

theorem wire_map_readStringUntil (l : List (List Byte)) :
    wire (l.map Event.readStringUntil) = [] := by
  induction l with
  | nil => rfl
  | cons a l ih => simp [wire_cons, Event.sent, ih]

theorem wire_allocate (env : Env) (size : Nat) : wire (allocate env size).1 = [] := by
  rcases allocate_cases env size with h | h | h <;> simp [h, wire_cons, wire_nil, Event.sent]

theorem wire_exchange (self : ESP32CrashUploader) (env : Env) (size : Nat) :
    wire (exchange self env size) =
      (requestHead self size).flatten ++
        (bodyStart self ++
          (readBuffer env size).take (env.client_write (readBuffer env size)) ++ bodyEnd) := by
  simp [exchange, wire_append, wire_cons, wire_nil, wire_map_print, wire_map_readStringUntil,
    Event.sent]

theorem wire_sent (self : ESP32CrashUploader) (env : Env) (addr size : Nat)
    (resp : List Byte) (himg : env.core_dump_image = some (addr, size))
    (hsent : (tryUpload self env).terminal = .Sent resp) :
    wire (tryUpload self env).trace =
      (requestHead self size).flatten ++
        (bodyStart self ++
          (readBuffer env size).take (env.client_write (readBuffer env size)) ++ bodyEnd) := by
  obtain ⟨_, ip, ht⟩ := tryUpload_sent self env addr size resp himg hsent
  rw [ht]
  simp [wire_append, wire_cons, wire_nil, wire_allocate, wire_exchange, Event.sent]

theorem length_readBuffer (env : Env) (size : Nat) : (readBuffer env size).length = size := by
  simp [readBuffer]

theorem toInt32_of_lt (n : Nat) (h : n < 2147483648) : toInt32 n = (n : Int) := by
  unfold toInt32
  have h1 : n % 4294967296 = n := Nat.mod_eq_of_lt (by omega)
  rw [h1, if_pos h]

theorem decimal_natCast (n : Nat) : decimal (n : Int) = natDecimal n := by
  unfold decimal
  have h : ¬ ((n : Int) < 0) := by omega
  rw [if_neg h]
  simp

/-- C2: in every run that reaches the request, with a dump of `size` bytes and
`bodyStart.length + size + bodyEnd.length` below `2^31`, the `Content-Length`
header that is printed carries the decimal text of exactly
`bodyStart.length + size + bodyEnd.length`; and when the transport takes every
byte of the attachment, what it took after the header block is `bodyStart`,
then the `size` bytes of the buffer, then `bodyEnd`, whose length is that same
number. -/
theorem C2_content_length_exact (self : ESP32CrashUploader) (env : Env) (addr size : Nat)
    (resp : List Byte) (himg : env.core_dump_image = some (addr, size))
    (hsent : (tryUpload self env).terminal = .Sent resp)
    (hsum : (bodyStart self).length + size + bodyEnd.length < 2147483648)
    (hall : env.client_write (readBuffer env size) = size) :
    contentLength self size = (((bodyStart self).length + size + bodyEnd.length : Nat) : Int) ∧
    Event.print (ascii "Content-Length: " ++
        natDecimal ((bodyStart self).length + size + bodyEnd.length) ++ ascii "\r\n") ∈
      (tryUpload self env).trace ∧
    wire (tryUpload self env).trace =
      (requestHead self size).flatten ++ (bodyStart self ++ readBuffer env size ++ bodyEnd) ∧
    (readBuffer env size).length = size ∧
    (bodyStart self ++ readBuffer env size ++ bodyEnd).length =
      (bodyStart self).length + size + bodyEnd.length := by
  have hcl : contentLength self size =
      (((bodyStart self).length + size + bodyEnd.length : Nat) : Int) :=
    toInt32_of_lt _ hsum
  obtain ⟨_, ip, ht⟩ := tryUpload_sent self env addr size resp himg hsent
  refine ⟨hcl, ?_, ?_, length_readBuffer env size, ?_⟩
  · rw [ht, ← decimal_natCast, ← hcl]
    simp [exchange, requestHead]
  · rw [wire_sent self env addr size resp himg hsent, hall]
    have h := length_readBuffer env size
    rw [List.take_of_length_le (by omega)]
  · simp [length_readBuffer]
    omega

set_option maxRecDepth 100000 in
/-- C2 at the scenario of the specification: a dump of 128 bytes, everything
accepted. -/
theorem C2_content_length_exact_witness :
    sampleEnv.core_dump_image = some (1114112, 128) ∧
    (tryUpload sampleUploader sampleEnv).terminal = .Sent (ascii "OK") ∧
    (bodyStart sampleUploader).length + 128 + bodyEnd.length < 2147483648 ∧
    sampleEnv.client_write (readBuffer sampleEnv 128) = 128 ∧
    contentLength sampleUploader 128 =
      (((bodyStart sampleUploader).length + 128 + bodyEnd.length : Nat) : Int) ∧
    wire (tryUpload sampleUploader sampleEnv).trace =
      (requestHead sampleUploader 128).flatten ++
        (bodyStart sampleUploader ++ readBuffer sampleEnv 128 ++ bodyEnd) :=
  have himg : sampleEnv.core_dump_image = some (1114112, 128) := rfl
  have hsent : (tryUpload sampleUploader sampleEnv).terminal = .Sent (ascii "OK") := by decide
  have hsum : (bodyStart sampleUploader).length + 128 + bodyEnd.length < 2147483648 := by
    decide
  have hall : sampleEnv.client_write (readBuffer sampleEnv 128) = 128 :=
    length_readBuffer sampleEnv 128
  have h := C2_content_length_exact sampleUploader sampleEnv 1114112 128 (ascii "OK") himg hsent
    hsum hall
  ⟨himg, hsent, hsum, hall, h.1, h.2.2.1⟩

theorem wire_of_not_requestWrite (t : List Event) (h : ∀ e ∈ t, e.isRequestWrite = false) :
    wire t = [] := by
  induction t with
  | nil => rfl
  | cons e t ih =>
    rw [wire_cons, ih (fun x hx => h x (List.mem_cons_of_mem _ hx))]
    have he := h e (List.mem_cons_self _ _)
    cases e <;> simp [Event.isRequestWrite, Event.sent] at he ⊢

theorem isRequestWrite_allocate (env : Env) (size : Nat) :
    ∀ e ∈ (allocate env size).1, e.isRequestWrite = false := by
  rcases allocate_cases env size with h | h | h <;> simp [h, Event.isRequestWrite]

/-- C7: in every run that reaches the request, the calls before the first
`print` of the header block hand nothing to the transport, the header block is
printed next and `bodyStart` right after it, and the text of the header block
is, in this order, `POST <path> HTTP/1.1`, `Host: <host>`,
`Content-Type: multipart/form-data; boundary=----ESPBOUNDARY`,
`Content-Length: <decimal contentLength>`, `Authorization: Bearer <token>`
exactly when `_authToken` is not null, and `Connection: close` followed by an
empty line. The token of the `Content-Type` header is `boundary`, with which
`bodyStart` opens its first part and `bodyEnd` closes the body. -/
theorem C7_request_head (self : ESP32CrashUploader) (env : Env) (addr size : Nat)
    (resp : List Byte) (himg : env.core_dump_image = some (addr, size))
    (hsent : (tryUpload self env).terminal = .Sent resp) :
    (∃ pre post, (tryUpload self env).trace =
        pre ++ (requestHead self size).map Event.print ++ Event.print (bodyStart self) :: post ∧
      (∀ e ∈ pre, e.isRequestWrite = false) ∧ wire pre = []) ∧
    (requestHead self size).flatten =
      ascii "POST " ++ path self ++ ascii " HTTP/1.1\r\n" ++
      (ascii "Host: " ++ host self ++ ascii "\r\n") ++
      ascii "Content-Type: multipart/form-data; boundary=----ESPBOUNDARY\r\n" ++
      (ascii "Content-Length: " ++ decimal (contentLength self size) ++ ascii "\r\n") ++
      (match self._authToken with
       | some token => ascii "Authorization: Bearer " ++ token ++ ascii "\r\n"
       | none => []) ++
      ascii "Connection: close\r\n\r\n" ∧
    boundary = ascii "----ESPBOUNDARY" ∧
    (∀ id, self._deviceId = some id →
      ∃ rest, bodyStart self = ascii "--" ++ boundary ++ ascii "\r\n" ++ rest) ∧
    bodyEnd = ascii "\r\n" ++ ascii "--" ++ boundary ++ ascii "--" ++ ascii "\r\n" := by
  obtain ⟨_, ip, ht⟩ := tryUpload_sent self env addr size resp himg hsent
  have hpre : ∀ e ∈ [Event.esp_reset_reason, .esp_core_dump_image_get true,
      .esp_partition_find_first true] ++ (allocate env size).1 ++
      [.esp_partition_read size true] ++
      [.hostByName (hostname self) true, .connect ip (port self) true],
      e.isRequestWrite = false := by
    intro e he
    simp only [List.mem_append, List.mem_cons, List.not_mem_nil, or_false] at he
    rcases he with (((rfl | rfl | rfl) | he) | rfl) | rfl | rfl
    · rfl
    · rfl
    · rfl
    · exact isRequestWrite_allocate env size e he
    · rfl
    · rfl
    · rfl
  refine ⟨⟨_, [.write (readBuffer env size) (env.client_write (readBuffer env size)),
      .print bodyEnd] ++ (readHeaders env.linkUp env.rx).1.map Event.readStringUntil ++
      [.readString (response env), .stop, .free], ?_, hpre,
    wire_of_not_requestWrite _ hpre⟩, ?_, rfl, ?_, ?_⟩
  · rw [ht]
    simp [exchange]
  · have hct : ascii "Content-Type: multipart/form-data; boundary=" ++ boundary ++ ascii "\r\n" =
        ascii "Content-Type: multipart/form-data; boundary=----ESPBOUNDARY\r\n" := by decide
    cases hat : self._authToken <;> simp [requestHead, hat, hct]
  · intro id hid
    simp only [bodyStart, hid, plusCStr, List.append_assoc]
    exact ⟨_, rfl⟩
  · decide

set_option maxRecDepth 100000 in
/-- C7 at the scenario of the specification. -/
theorem C7_request_head_witness :
    sampleEnv.core_dump_image = some (1114112, 128) ∧
    (tryUpload sampleUploader sampleEnv).terminal = .Sent (ascii "OK") ∧
    (requestHead sampleUploader 128).flatten =
      ascii "POST " ++ path sampleUploader ++ ascii " HTTP/1.1\r\n" ++
      (ascii "Host: " ++ host sampleUploader ++ ascii "\r\n") ++
      ascii "Content-Type: multipart/form-data; boundary=----ESPBOUNDARY\r\n" ++
      (ascii "Content-Length: " ++ decimal (contentLength sampleUploader 128) ++ ascii "\r\n") ++
      (ascii "Authorization: Bearer " ++ ascii "secret" ++ ascii "\r\n") ++
      ascii "Connection: close\r\n\r\n" ∧
    path sampleUploader = ascii "/upload" ∧
    host sampleUploader = ascii "example.com:8080" ∧
    decimal (contentLength sampleUploader 128) = ascii "600" :=
  have himg : sampleEnv.core_dump_image = some (1114112, 128) := rfl
  have hsent : (tryUpload sampleUploader sampleEnv).terminal = .Sent (ascii "OK") := by decide
  ⟨himg, hsent,
    (C7_request_head sampleUploader sampleEnv 1114112 128 (ascii "OK") himg hsent).2.1,
    by decide, by decide, by decide⟩

theorem countP_isWrite_map_print (l : List (List Byte)) :
    (l.map Event.print).countP Event.isWrite = 0 := by
  induction l with
  | nil => rfl
  | cons a l ih => simp [List.countP_cons, Event.isWrite, ih]

theorem countP_isWrite_map_readStringUntil (l : List (List Byte)) :
    (l.map Event.readStringUntil).countP Event.isWrite = 0 := by
  induction l with
  | nil => rfl
  | cons a l ih => simp [List.countP_cons, Event.isWrite, ih]

theorem countP_isWrite_allocate (env : Env) (size : Nat) :
    (allocate env size).1.countP Event.isWrite = 0 := by
  rcases allocate_cases env size with h | h | h <;> simp [h, List.countP_cons, Event.isWrite]

/-- C8 (amended): in every run that reaches the request, with a dump of `size`
bytes, `bodyStart.length + size + bodyEnd.length` below `2^31`, and a transport
that reports `k ≤ size` bytes of the attachment accepted, `client.write` is
called exactly once; right after it `bodyEnd` is printed, the response is read
and the run ends at the final return. The transport took, after the header
block, `bodyStart`, the first `k` bytes of the buffer and `bodyEnd`:
`bodyStart.length + k + bodyEnd.length` bytes, which is the declared
`contentLength` minus `size - k`. -/
theorem C8_short_write_continues (self : ESP32CrashUploader) (env : Env) (addr size : Nat)
    (resp : List Byte) (k : Nat) (himg : env.core_dump_image = some (addr, size))
    (hsent : (tryUpload self env).terminal = .Sent resp)
    (hk : env.client_write (readBuffer env size) = k) (hle : k ≤ size)
    (hsum : (bodyStart self).length + size + bodyEnd.length < 2147483648) :
    (tryUpload self env).trace.countP Event.isWrite = 1 ∧
    (∃ pre, (tryUpload self env).trace =
      pre ++ [.write (readBuffer env size) k, .print bodyEnd] ++
        (readHeaders env.linkUp env.rx).1.map Event.readStringUntil ++
        [.readString resp, .stop, .free]) ∧
    wire (tryUpload self env).trace =
      (requestHead self size).flatten ++
        (bodyStart self ++ (readBuffer env size).take k ++ bodyEnd) ∧
    (bodyStart self ++ (readBuffer env size).take k ++ bodyEnd).length =
      (bodyStart self).length + k + bodyEnd.length ∧
    (((bodyStart self ++ (readBuffer env size).take k ++ bodyEnd).length : Nat) : Int) =
      contentLength self size - ((size : Int) - (k : Int)) := by
  obtain ⟨hresp, ip, ht⟩ := tryUpload_sent self env addr size resp himg hsent
  have hlen : (bodyStart self ++ (readBuffer env size).take k ++ bodyEnd).length =
      (bodyStart self).length + k + bodyEnd.length := by
    simp [length_readBuffer, Nat.min_eq_left hle]
    omega
  refine ⟨?_, ⟨[.esp_reset_reason, .esp_core_dump_image_get true,
      .esp_partition_find_first true] ++ (allocate env size).1 ++
      [.esp_partition_read size true] ++
      [.hostByName (hostname self) true, .connect ip (port self) true] ++
      (requestHead self size).map Event.print ++ [.print (bodyStart self)], ?_⟩, ?_, hlen, ?_⟩
  · rw [ht]
    simp [-List.countP_map, exchange, List.countP_append, List.countP_cons,
      countP_isWrite_allocate,
      countP_isWrite_map_print, countP_isWrite_map_readStringUntil, Event.isWrite]
  · rw [ht, hresp, ← hk]
    simp [exchange]
  · rw [wire_sent self env addr size resp himg hsent, hk]
  · rw [hlen]
    have hcl : contentLength self size =
        (((bodyStart self).length + size + bodyEnd.length : Nat) : Int) :=
      toInt32_of_lt _ hsum
    rw [hcl]
    push_cast
    omega

set_option maxRecDepth 100000 in
/-- C8 (amended) at the scenario of the specification with a transport that
accepts 100 of the 128 bytes. -/
theorem C8_short_write_continues_witness :
    (tryUpload sampleUploader
        { sampleEnv with client_write := fun _ => 100 }).terminal = .Sent (ascii "OK") ∧
    (100 : Nat) ≤ 128 ∧
    (bodyStart sampleUploader).length + 128 + bodyEnd.length < 2147483648 ∧
    (tryUpload sampleUploader
        { sampleEnv with client_write := fun _ => 100 }).trace.countP Event.isWrite = 1 ∧
    (bodyStart sampleUploader ++
        (readBuffer { sampleEnv with client_write := fun _ => 100 } 128).take 100 ++
        bodyEnd).length = (bodyStart sampleUploader).length + 100 + bodyEnd.length :=
  have hsent : (tryUpload sampleUploader
      { sampleEnv with client_write := fun _ => 100 }).terminal = .Sent (ascii "OK") := by
    decide
  have hsum : (bodyStart sampleUploader).length + 128 + bodyEnd.length < 2147483648 := by
    decide
  have h := C8_short_write_continues sampleUploader
    { sampleEnv with client_write := fun _ => 100 } 1114112 128 (ascii "OK") 100 rfl hsent rfl
    (by decide) hsum
  ⟨hsent, by decide, hsum, h.1, h.2.2.2.1⟩

set_option maxRecDepth 100000 in
/-- C8 as stated fails when the `int` of line 165 wraps: with a dump of `2^31`
bytes, all of them accepted (no shortfall), the transport took
`bodyStart.length + 2^31 + bodyEnd.length` bytes of body, while the declared
`contentLength` is negative. -/
theorem C8_counterexample_int_wraps :
    wrapEnv.core_dump_image = some (1114112, 2147483648) ∧
    (tryUpload sampleUploader wrapEnv).terminal = .Sent (ascii "OK") ∧
    wrapEnv.client_write (readBuffer wrapEnv 2147483648) = 2147483648 ∧
    contentLength sampleUploader 2147483648 < 0 ∧
    (((bodyStart sampleUploader ++ (readBuffer wrapEnv 2147483648).take 2147483648 ++
        bodyEnd).length : Nat) : Int) ≠
      contentLength sampleUploader 2147483648 - ((2147483648 : Int) - (2147483648 : Int)) := by
  have hneg : contentLength sampleUploader 2147483648 < 0 := by
    have h1 : (bodyStart sampleUploader).length = 449 := by decide
    have h2 : bodyEnd.length = 23 := by decide
    simp only [contentLength, h1, h2, toInt32]
    norm_num
  have hw : wrapEnv.client_write (readBuffer wrapEnv 2147483648) = 2147483648 := by
    simp only [wrapEnv, sampleEnv, length_readBuffer]
  refine ⟨rfl, by decide, hw, hneg, ?_⟩
  intro h
  have hpos : (0 : Int) ≤ (((bodyStart sampleUploader ++
      (readBuffer wrapEnv 2147483648).take 2147483648 ++ bodyEnd).length : Nat) : Int) :=
    Int.ofNat_nonneg _
  rw [h] at hpos
  omega

/-! ## `begin` and the device id -/

theorem tryUpload_self (self : ESP32CrashUploader) (env : Env) :
    (tryUpload self env).self = self := by
  rcases tryUpload_cases self env with ⟨_, hrun⟩ | ⟨_, ⟨_, hrun⟩ | ⟨addr, size, _, ⟨_, hrun⟩ |
    ⟨part, _, ⟨_, hrun⟩ | ⟨_, ⟨_, hrun⟩ | ⟨_, ⟨_, hrun⟩ | ⟨ip, _, ⟨_, hrun⟩ | ⟨_, hrun⟩⟩⟩⟩⟩⟩⟩ <;>
  rw [hrun]

theorem hexDigit_spec :
    ∀ n < 16, isUpperHex (hexDigit n) = true ∧ hexValue (hexDigit n) = n := by
  decide

theorem hex02X_spec (b : Byte) :
    (hex02X b).length = 2 ∧ (∀ c ∈ hex02X b, isUpperHex c = true) ∧
      ∀ rest, unhex (hex02X b ++ rest) = b.val :: unhex rest := by
  have h1 : b.val / 16 < 16 := by
    have := b.isLt
    omega
  have h2 : b.val % 16 < 16 := Nat.mod_lt _ (by decide)
  have d1 := hexDigit_spec _ h1
  have d2 := hexDigit_spec _ h2
  refine ⟨rfl, ?_, ?_⟩
  · intro c hc
    simp only [hex02X, List.mem_cons, List.not_mem_nil, or_false] at hc
    rcases hc with rfl | rfl
    · exact d1.1
    · exact d2.1
  · intro rest
    simp only [hex02X, List.cons_append, List.nil_append, unhex, d1.2, d2.2]
    congr 1
    omega

theorem macHex_eq (mac : Fin 6 → Byte) :
    ((List.finRange 6).flatMap fun i => hex02X (mac i)) =
      hex02X (mac 0) ++ (hex02X (mac 1) ++ (hex02X (mac 2) ++ (hex02X (mac 3) ++
        (hex02X (mac 4) ++ (hex02X (mac 5) ++ []))))) := by
  rfl

theorem macHex_spec (mac : Fin 6 → Byte) :
    ((List.finRange 6).flatMap fun i => hex02X (mac i)).length = 12 ∧
    (∀ c ∈ (List.finRange 6).flatMap fun i => hex02X (mac i), isUpperHex c = true) ∧
    unhex ((List.finRange 6).flatMap fun i => hex02X (mac i)) =
      (List.finRange 6).map fun i => (mac i).val := by
  refine ⟨?_, ?_, ?_⟩
  · rw [macHex_eq]
    rfl
  · intro c hc
    rw [List.mem_flatMap] at hc
    obtain ⟨i, _, hi⟩ := hc
    exact (hex02X_spec (mac i)).2.1 c hi
  · rw [macHex_eq, (hex02X_spec _).2.2, (hex02X_spec _).2.2, (hex02X_spec _).2.2,
      (hex02X_spec _).2.2, (hex02X_spec _).2.2, (hex02X_spec _).2.2]
    rfl

theorem begin_self (self : ESP32CrashUploader) (ssid password : List Byte) (env : Env) :
    (begin self ssid password env).self =
      { self with _deviceId := some (deviceIdAfterBegin self env) } := by
  simp [begin, tryUpload_self]

/-- C9: when `_deviceId` is null or empty, `begin` sets it to the text
`%02X%02X%02X%02X%02X%02X` of the six bytes of the station MAC: twelve
characters, each one of `0-9A-F`, two per byte in the order `mac[0]..mac[5]`,
from which the six bytes are read back. When `_deviceId` is a non-empty string
`begin` leaves it as it is. In both cases the upload that `begin` makes runs on
the object with that id, and its `bodyStart` carries the id as the content of
the `device_id` part, between the part's header and the next delimiter. -/
theorem C9_device_id (self : ESP32CrashUploader) (ssid password : List Byte) (env : Env) :
    ((self._deviceId = none ∨ self._deviceId = some []) →
      (begin self ssid password env).self._deviceId =
        some ((List.finRange 6).flatMap fun i => hex02X (env.mac i)) ∧
      ((List.finRange 6).flatMap fun i => hex02X (env.mac i)).length = 12 ∧
      (∀ c ∈ (List.finRange 6).flatMap fun i => hex02X (env.mac i), isUpperHex c = true) ∧
      unhex ((List.finRange 6).flatMap fun i => hex02X (env.mac i)) =
        (List.finRange 6).map fun i => (env.mac i).val) ∧
    (∀ id, id ≠ [] → self._deviceId = some id →
      (begin self ssid password env).self._deviceId = some id) ∧
    (∃ id, (begin self ssid password env).self._deviceId = some id ∧
      (begin self ssid password env).terminal =
        (tryUpload (begin self ssid password env).self env).terminal ∧
      (∃ pre, (begin self ssid password env).trace =
        pre ++ (tryUpload (begin self ssid password env).self env).trace) ∧
      ∃ front back, bodyStart (begin self ssid password env).self =
        front ++ ascii "Content-Disposition: form-data; name=\"device_id\"\r\n\r\n" ++ id ++
          (ascii "\r\n" ++ ascii "--" ++ boundary ++ ascii "\r\n") ++ back) := by
  have hself := begin_self self ssid password env
  refine ⟨?_, ?_, ?_⟩
  · intro h
    refine ⟨?_, macHex_spec env.mac⟩
    rw [hself]
    rcases h with h | h <;> simp [deviceIdAfterBegin, h]
  · intro id hid h
    rw [hself]
    cases id with
    | nil => exact absurd rfl hid
    | cons c cs => simp [deviceIdAfterBegin, h]
  · refine ⟨deviceIdAfterBegin self env, by rw [hself], ?_, ?_, ?_⟩
    · rw [hself]
      rfl
    · rw [hself]
      exact ⟨_, rfl⟩
    · rw [hself]
      refine ⟨ascii "--" ++ boundary ++ ascii "\r\n" ++
          ascii "Content-Disposition: form-data; name=\"version\"\r\n\r\n" ++
          self._firmwareVersion ++ ascii "\r\n" ++ ascii "--" ++ boundary ++ ascii "\r\n" ++
          ascii "Content-Disposition: form-data; name=\"project\"\r\n\r\n" ++ self._project ++
          ascii "\r\n" ++ ascii "--" ++ boundary ++ ascii "\r\n",
        ascii "Content-Disposition: form-data; name=\"fqbn\"\r\n\r\n" ++ self._fqbn ++
          ascii "\r\n" ++ ascii "--" ++ boundary ++ ascii "\r\n" ++
          ascii "Content-Disposition: form-data; name=\"coredump\"; filename=\"coredump.bin\"\r\n" ++
          ascii "Content-Type: application/octet-stream\r\n\r\n", ?_⟩
      simp only [bodyStart, plusCStr, List.append_assoc]

/-! ## Splitting the server URL -/

theorem startsWith_iff {α : Type} [DecidableEq α] (p s : List α) :
    startsWith p s = true ↔ p <+: s := by
  induction p generalizing s with
  | nil => simp [startsWith]
  | cons a as ih =>
    cases s with
    | nil => simp [startsWith]
    | cons b bs =>
      by_cases h : a = b
      · subst h
        simp [startsWith, ih, List.cons_prefix_cons]
      · simp [startsWith, h, List.cons_prefix_cons]

theorem startsWith_append_self {α : Type} [DecidableEq α] (p s : List α) :
    startsWith p (p ++ s) = true :=
  (startsWith_iff p (p ++ s)).2 (List.prefix_append p s)

theorem replaceScan_skip {α : Type} [DecidableEq α] (find repl : List α) (a b : List α) :
    replaceScan find repl a.length (a ++ b) = replaceScan find repl 0 b := by
  induction a with
  | nil => rfl
  | cons x xs ih => simpa [replaceScan] using ih

theorem replaceScan_of_not_infix {α : Type} [DecidableEq α] (find repl : List α) (s : List α)
    (h : ¬ find <:+: s) : replaceScan find repl 0 s = s := by
  induction s with
  | nil => rfl
  | cons c cs ih =>
    have h1 : startsWith find (c :: cs) = false := by
      cases hsw : startsWith find (c :: cs) with
      | false => rfl
      | true => exact absurd ((startsWith_iff _ _).1 hsw).isInfix h
    have h2 : ¬ find <:+: cs := fun hi => h (hi.trans (List.suffix_cons c cs).isInfix)
    simp [replaceScan, h1, ih h2]

theorem replace_of_not_infix {α : Type} [DecidableEq α] (s find repl : List α)
    (h : ¬ find <:+: s) : replace s find repl = s := by
  unfold replace
  split
  · rfl
  · exact replaceScan_of_not_infix find repl s h

theorem replaceScan_zero_cons {α : Type} [DecidableEq α] (find repl : List α) (c : α)
    (cs : List α) :
    replaceScan find repl 0 (c :: cs) =
      if startsWith find (c :: cs) = true then
        repl ++ replaceScan find repl (find.length - 1) cs
      else c :: replaceScan find repl 0 cs := by
  simp [replaceScan]

theorem replace_at_start {α : Type} [DecidableEq α] (find s : List α) (hf : find ≠ [])
    (h : ¬ find <:+: s) : replace (find ++ s) find [] = s := by
  cases find with
  | nil => exact absurd rfl hf
  | cons c cs =>
    have hne : ¬ ((c :: cs) ++ s = [] ∨ (c :: cs) = []) := by simp
    have hsw := startsWith_append_self (c :: cs) s
    unfold replace
    rw [if_neg hne]
    rw [List.cons_append] at hsw ⊢
    rw [replaceScan_zero_cons, if_pos hsw, List.nil_append]
    have hl : (c :: cs).length - 1 = cs.length := by simp
    rw [hl, replaceScan_skip]
    exact replaceScan_of_not_infix _ _ _ h

theorem ascii_http : ascii "http://" = [104, 116, 116, 112, 58, 47, 47] := by decide

theorem ascii_https : ascii "https://" = [104, 116, 116, 112, 115, 58, 47, 47] := by decide

theorem url_of_scheme (self : ESP32CrashUploader) (scheme rest : List Byte)
    (hs : scheme = ascii "http://" ∨ scheme = ascii "https://")
    (hurl : self._serverUrl = scheme ++ rest)
    (h1 : ¬ ascii "http://" <:+: rest) (h2 : ¬ ascii "https://" <:+: rest) :
    url self = rest := by
  unfold url
  rw [hurl]
  rcases hs with rfl | rfl
  · have hq : replace (ascii "http://" ++ rest) (ascii "https://") [] =
        ascii "http://" ++ rest := by
      rw [ascii_http, ascii_https] at *
      have := replaceScan_of_not_infix [104, 116, 116, 112, 115, 58, 47, 47] ([] : List Byte)
        rest h2
      simp [replace, replaceScan_zero_cons, startsWith, this]
    rw [hq]
    exact replace_at_start _ _ (by rw [ascii_http]; simp) h1
  · rw [replace_at_start _ _ (by rw [ascii_https]; simp) h2]
    exact replace_of_not_infix _ _ _ h1

theorem indexOfFrom_cons (c x : Byte) (xs : List Byte) (i : Nat) :
    indexOfFrom c i (x :: xs) = if x = c then (i : Int) else indexOfFrom c (i + 1) xs := rfl

theorem indexOfFrom_append_cons (c : Byte) (a b : List Byte) (i : Nat) (h : c ∉ a) :
    indexOfFrom c i (a ++ c :: b) = ((i + a.length : Nat) : Int) := by
  induction a generalizing i with
  | nil => simp [indexOfFrom]
  | cons x xs ih =>
    have hx : x ≠ c := fun hxc => h (hxc ▸ List.mem_cons_self _ _)
    have hxs : c ∉ xs := fun hm => h (List.mem_cons_of_mem _ hm)
    rw [List.cons_append, indexOfFrom_cons, if_neg hx, ih (i + 1) hxs, List.length_cons]
    congr 1
    omega

theorem indexOfFrom_of_not_mem (c : Byte) (a : List Byte) (i : Nat) (h : c ∉ a) :
    indexOfFrom c i a = -1 := by
  induction a generalizing i with
  | nil => rfl
  | cons x xs ih =>
    have hx : x ≠ c := fun hxc => h (hxc ▸ List.mem_cons_self _ _)
    have hxs : c ∉ xs := fun hm => h (List.mem_cons_of_mem _ hm)
    rw [indexOfFrom_cons, if_neg hx, ih (i + 1) hxs]

theorem indexOf_append_cons (c : Byte) (a b : List Byte) (h : c ∉ a) :
    indexOf (a ++ c :: b) c = (a.length : Int) := by
  simpa [indexOf] using indexOfFrom_append_cons c a b 0 h

theorem toUnsigned_natCast (n : Nat) : toUnsigned (n : Int) = n := by
  unfold toUnsigned
  have h : ¬ ((n : Int) < 0) := by omega
  rw [if_neg h]
  simp

theorem substring_zero_length_append (a b : List Byte) (hb : b ≠ []) :
    substring (a ++ b) 0 a.length = a := by
  unfold substring
  have hlen : 0 < b.length := List.length_pos.2 hb
  simp only [List.length_append]
  have h1 : ¬ (0 > a.length) := by omega
  have h2 : ¬ (0 ≥ a.length + b.length) := by omega
  have h3 : ¬ (a.length > a.length + b.length) := by omega
  simp [h1, h2, h3]

theorem substringFrom_length_append (a b : List Byte) :
    substringFrom (a ++ b) a.length = b := by
  unfold substringFrom substring
  simp only [List.length_append]
  have h1 : ¬ (a.length > a.length + b.length) := by omega
  by_cases hb : b = []
  · subst hb
    simp
  · have hlen : 0 < b.length := List.length_pos.2 hb
    have h2 : ¬ (a.length ≥ a.length + b.length) := by omega
    have h3 : ¬ (a.length + b.length > a.length + b.length) := by omega
    simp [h1, h2, h3]
    rw [← List.length_append, List.take_length]
    simp

theorem foldl_digits (ds : List Byte) (acc : Nat) :
    ds.foldl (fun acc d => acc * 10 + (d.val - 48)) acc =
      acc * 10 ^ ds.length + decimalValue ds := by
  induction ds generalizing acc with
  | nil => simp [decimalValue]
  | cons d ds ih =>
    simp only [List.foldl_cons, ih, decimalValue, List.length_cons, pow_succ]
    ring

theorem digitsValue_eq_decimalValue (ds : List Byte) : digitsValue ds = decimalValue ds := by
  simp [digitsValue, foldl_digits]

theorem takeWhile_isdigit (ds : List Byte) (h : ∀ d ∈ ds, isdigit d = true) :
    ds.takeWhile isdigit = ds := by
  induction ds with
  | nil => rfl
  | cons d ds ih =>
    have hd := h d (List.mem_cons_self _ _)
    simp [List.takeWhile_cons, hd, ih (fun x hx => h x (List.mem_cons_of_mem _ hx))]

theorem isdigit_not_special (d : Byte) (h : isdigit d = true) :
    isspace d = false ∧ d ≠ 45 ∧ d ≠ 43 := by
  simp only [isdigit, Bool.and_eq_true, decide_eq_true_eq] at h
  refine ⟨?_, ?_, ?_⟩
  · have h32 : d ≠ 32 := by
      intro h1
      subst h1
      exact absurd h (by decide)
    have h13 : ¬ (d.val ≤ 13) := by omega
    simp [isspace, h32, h13]
  · intro h1
    subst h1
    exact absurd h (by decide)
  · intro h1
    subst h1
    exact absurd h (by decide)

theorem toInt_digits (ds : List Byte) (h : ∀ d ∈ ds, isdigit d = true)
    (hv : decimalValue ds < 2147483648) : toInt ds = (decimalValue ds : Int) := by
  have hdrop : ds.dropWhile isspace = ds := by
    cases ds with
    | nil => rfl
    | cons d ds =>
      have := (isdigit_not_special d (h d (List.mem_cons_self _ _))).1
      simp [List.dropWhile_cons, this]
  have h45 : ¬ (ds.head? = some 45) := by
    cases ds with
    | nil => simp
    | cons d ds =>
      have := isdigit_not_special d (h d (List.mem_cons_self _ _))
      simp [this.2.1]
  have h43 : ¬ (ds.head? = some 43) := by
    cases ds with
    | nil => simp
    | cons d ds =>
      have := isdigit_not_special d (h d (List.mem_cons_self _ _))
      simp [this.2.2]
  have h1 : ¬ ((decimalValue ds : Int) > 2147483647) := by omega
  have h2 : ¬ ((decimalValue ds : Int) < -2147483648) := by omega
  unfold toInt
  simp only [hdrop, h45, h43, or_self, if_false, takeWhile_isdigit ds h,
    digitsValue_eq_decimalValue, decide_False, Bool.false_eq_true, h1, h2]

theorem indexOf_of_not_mem (s : List Byte) (c : Byte) (h : c ∉ s) : indexOf s c = -1 := by
  simpa [indexOf] using indexOfFrom_of_not_mem c s 0 h

/-- C10: for a server URL `scheme ++ name ++ optPort ++ pth` where `scheme` is
`http://` or `https://`, `name` has neither `/` nor `:`,
`optPort` is empty or `:` followed by decimal digits denoting a number below
65536, `pth` starts with `/`, and neither `http://` nor `https://` occurs after
the scheme: `host` (the `Host` header) is `name ++ optPort`, `path` (the
request path) is `pth`, `hostname` (handed to the resolver) is `name`, and
`port` (handed to `connect`) is the number the digits denote when there is a
port and 80 otherwise, whichever the scheme. -/
theorem C10_url_split (self : ESP32CrashUploader) (scheme name optPort pth : List Byte)
    (hs : scheme = ascii "http://" ∨ scheme = ascii "https://")
    (hurl : self._serverUrl = scheme ++ name ++ optPort ++ pth)
    (hslash : (47 : Byte) ∉ name) (hcolon : (58 : Byte) ∉ name)
    (hport : optPort = [] ∨
      ∃ ds, optPort = 58 :: ds ∧ (∀ d ∈ ds, isdigit d = true) ∧ decimalValue ds < 65536)
    (hpath : ∃ rest, pth = 47 :: rest)
    (h1 : ¬ ascii "http://" <:+: name ++ optPort ++ pth)
    (h2 : ¬ ascii "https://" <:+: name ++ optPort ++ pth) :
    host self = name ++ optPort ∧ path self = pth ∧ hostname self = name ∧
    (optPort = [] → port self = 80) ∧
    (∀ ds, optPort = 58 :: ds → port self = decimalValue ds) := by
  obtain ⟨rest, rfl⟩ := hpath
  have hu : url self = (name ++ optPort) ++ 47 :: rest :=
    url_of_scheme self scheme _ hs (by rw [hurl]; simp [List.append_assoc]) h1 h2
  have hno : (47 : Byte) ∉ name ++ optPort := by
    intro hm
    rcases List.mem_append.1 hm with hm | hm
    · exact hslash hm
    · rcases hport with rfl | ⟨ds, rfl, hd, _⟩
      · simp at hm
      · rcases List.mem_cons.1 hm with hm | hm
        · exact absurd hm (by decide)
        · exact absurd (hd _ hm) (by decide)
  have hsi : slashIndex self = ((name ++ optPort).length : Int) := by
    unfold slashIndex
    rw [hu]
    exact indexOf_append_cons 47 _ _ hno
  have hhost : host self = name ++ optPort := by
    unfold host
    rw [hsi, toUnsigned_natCast, hu]
    exact substring_zero_length_append _ _ (by simp)
  have hpth : path self = 47 :: rest := by
    unfold path
    rw [hsi, toUnsigned_natCast, hu]
    exact substringFrom_length_append _ _
  refine ⟨hhost, hpth, ?_, ?_, ?_⟩
  · rcases hport with rfl | ⟨ds, rfl, hd, _⟩
    · have hci : colonIndex self = -1 := by
        unfold colonIndex
        rw [hhost]
        exact indexOf_of_not_mem _ _ (by simpa using hcolon)
      simp [hostname, hci, hhost]
    · have hci : colonIndex self = (name.length : Int) := by
        unfold colonIndex
        rw [hhost]
        exact indexOf_append_cons 58 _ _ hcolon
      have hne : colonIndex self ≠ -1 := by
        rw [hci]
        omega
      unfold hostname
      rw [if_pos hne, hci, toUnsigned_natCast, hhost]
      exact substring_zero_length_append _ _ (by simp)
  · rintro rfl
    have hci : colonIndex self = -1 := by
      unfold colonIndex
      rw [hhost]
      exact indexOf_of_not_mem _ _ (by simpa using hcolon)
    simp [port, hci]
  · rintro ds rfl
    rcases hport with h | ⟨ds1, h, hd, hv⟩
    · simp at h
    · simp only [List.cons.injEq, true_and] at h
      subst h
      have hci : colonIndex self = (name.length : Int) := by
        unfold colonIndex
        rw [hhost]
        exact indexOf_append_cons 58 _ _ hcolon
      have hne : colonIndex self ≠ -1 := by
        rw [hci]
        omega
      have hsub : substringFrom (host self) (toUnsigned (colonIndex self + 1)) = ds := by
        rw [hci, hhost]
        have hc : ((name.length : Int) + 1) = ((name ++ [(58 : Byte)]).length : Nat) := by
          simp
        rw [hc, toUnsigned_natCast]
        have hsplit : name ++ (58 : Byte) :: ds = (name ++ [58]) ++ ds := by simp
        rw [hsplit]
        exact substringFrom_length_append _ _
      unfold port
      rw [if_pos hne, hsub, toInt_digits ds hd (by omega)]
      omega

set_option maxRecDepth 100000 in
/-- C10 at `http://example.com:8080/upload`. -/
theorem C10_url_split_witness :
    sampleUploader._serverUrl =
      ascii "http://" ++ ascii "example.com" ++ ascii ":8080" ++ ascii "/upload" ∧
    host sampleUploader = ascii "example.com" ++ ascii ":8080" ∧
    path sampleUploader = ascii "/upload" ∧
    hostname sampleUploader = ascii "example.com" ∧
    port sampleUploader = 8080 :=
  have hurl : sampleUploader._serverUrl =
      ascii "http://" ++ ascii "example.com" ++ ascii ":8080" ++ ascii "/upload" := by decide
  have h := C10_url_split sampleUploader (ascii "http://") (ascii "example.com") (ascii ":8080")
    (ascii "/upload") (Or.inl rfl) hurl (by decide) (by decide)
    (Or.inr ⟨ascii "8080", by decide, by decide, by decide⟩) ⟨ascii "upload", by decide⟩
    (by decide) (by decide)
  ⟨hurl, h.1, h.2.1, h.2.2.1, (h.2.2.2.2 (ascii "8080") (by decide)).trans (by decide)⟩

/-! ## Reading the response -/

theorem readStringUntil_append_cons (t : Byte) (l rest : List Byte) (h : t ∉ l) :
    readStringUntil t (l ++ t :: rest) = (l, rest) := by
  induction l with
  | nil => simp [readStringUntil]
  | cons x xs ih =>
    have hx : x ≠ t := fun hxt => h (hxt ▸ List.mem_cons_self _ _)
    have hxs : t ∉ xs := fun hm => h (List.mem_cons_of_mem _ hm)
    simp [readStringUntil, hx, ih hxs]

theorem equalsCStr_cr : equalsCStr [13] [13] = true := by decide

/-- A line that is not empty and does not begin with CR NUL, with its CR still
attached, does not compare equal to `"\r"`. -/
theorem equalsCStr_line (h : List Byte) (hne : h ≠ [])
    (hnul : ¬ ([13, 0] : List Byte) <+: h) : equalsCStr (h ++ [13]) [13] = false := by
  cases h with
  | nil => exact absurd rfl hne
  | cons x xs =>
    have hs : ¬ (x :: xs ++ [13] = []) := by simp
    by_cases hx0 : x = 0
    · subst hx0
      simp [equalsCStr, List.takeWhile_cons]
    · cases xs with
      | nil =>
        simp [equalsCStr, List.takeWhile_cons, hx0]
      | cons y ys =>
        by_cases hy0 : y = 0
        · subst hy0
          have hx13 : x ≠ 13 := by
            intro hx
            subst hx
            exact hnul ⟨ys, rfl⟩
          simp [equalsCStr, List.takeWhile_cons, hx0, hx13]
        · simp [equalsCStr, List.takeWhile_cons, hx0, hy0]

theorem readHeaders_succ (n : Nat) (rx : List Byte) :
    readHeaders (n + 1) rx =
      if equalsCStr (readStringUntil 10 rx).1 [13] = true then
        ([(readStringUntil 10 rx).1], (readStringUntil 10 rx).2)
      else ((readStringUntil 10 rx).1 :: (readHeaders n (readStringUntil 10 rx).2).1,
        (readHeaders n (readStringUntil 10 rx).2).2) := rfl

theorem readHeaders_blank (n : Nat) (b : List Byte) :
    readHeaders (n + 1) (CRLF ++ b) = ([[13]], b) := by
  have h : readStringUntil 10 (CRLF ++ b) = ([13], b) :=
    readStringUntil_append_cons 10 [13] b (by decide)
  rw [readHeaders_succ, h]
  simp [equalsCStr_cr]

theorem readHeaders_lines (hs : List (List Byte)) (n : Nat) (b : List Byte)
    (hh : ∀ h ∈ hs, (10 : Byte) ∉ h ∧ h ≠ [] ∧ ¬ ([13, 0] : List Byte) <+: h)
    (hn : hs.length + 1 ≤ n) :
    readHeaders n (hs.flatMap (fun h => h ++ CRLF) ++ (CRLF ++ b)) =
      (hs.map (fun h => h ++ [13]) ++ [[13]], b) := by
  induction hs generalizing n with
  | nil =>
    obtain ⟨m, rfl⟩ : ∃ m, n = m + 1 := ⟨n - 1, by simp at hn; omega⟩
    simpa using readHeaders_blank m b
  | cons h hs ih =>
    obtain ⟨m, rfl⟩ : ∃ m, n = m + 1 := ⟨n - 1, by simp at hn; omega⟩
    have hh1 := hh h (List.mem_cons_self _ _)
    have hline : readStringUntil 10
        ((h :: hs).flatMap (fun h => h ++ CRLF) ++ (CRLF ++ b)) =
        (h ++ [13], hs.flatMap (fun h => h ++ CRLF) ++ (CRLF ++ b)) := by
      have hsplit : (h :: hs).flatMap (fun h => h ++ CRLF) ++ (CRLF ++ b) =
          (h ++ [13]) ++ 10 :: (hs.flatMap (fun h => h ++ CRLF) ++ (CRLF ++ b)) := by
        simp [List.flatMap_cons, CRLF]
      rw [hsplit]
      refine readStringUntil_append_cons 10 _ _ ?_
      intro hm
      rcases List.mem_append.1 hm with hm | hm
      · exact hh1.1 hm
      · simp at hm
    have hne : equalsCStr (h ++ [13]) [13] = false := equalsCStr_line h hh1.2.1 hh1.2.2
    rw [readHeaders_succ, hline]
    simp only [hne, Bool.false_eq_true, if_false]
    rw [ih m (fun x hx => hh x (List.mem_cons_of_mem _ hx)) (by simp at hn ⊢; omega)]
    simp

/-- The return point of a run does not depend on what the server sends: with
other bytes received, a run that ended at the final return ends there again,
with the response read from those bytes. -/
theorem tryUpload_terminal_of_rx (self : ESP32CrashUploader) (env : Env) (rx : List Byte)
    (r : List Byte) (h : (tryUpload self env).terminal = .Sent r) :
    (tryUpload self { env with rx := rx }).terminal = .Sent (response { env with rx := rx }) := by
  rcases tryUpload_cases self env with ⟨_, hrun⟩ | ⟨_, ⟨hc, hrun⟩ | ⟨addr, size, hc, ⟨hp, hrun⟩ |
    ⟨part, hp, ⟨ha, hrun⟩ | ⟨ha, ⟨hr, hrun⟩ | ⟨hr, ⟨hd, hrun⟩ |
    ⟨ip, hd, ⟨hk, hrun⟩ | ⟨hk, hrun⟩⟩⟩⟩⟩⟩⟩ <;>
  rw [hrun] at h <;> simp at h
  rename_i hne
  rcases tryUpload_cases self { env with rx := rx } with ⟨h1, _⟩ | ⟨_, ⟨hc1, _⟩ |
    ⟨addr1, size1, hc1, ⟨hp1, _⟩ | ⟨part1, hp1, ⟨ha1, _⟩ | ⟨_, ⟨hr1, _⟩ | ⟨_, ⟨hd1, _⟩ |
    ⟨ip1, hd1, ⟨hk1, _⟩ | ⟨_, hrun1⟩⟩⟩⟩⟩⟩⟩
  · exact absurd h1 hne
  · have h2 : env.core_dump_image = none := hc1
    rw [hc] at h2
    cases h2
  all_goals
    have h2 : env.core_dump_image = some (addr1, size1) := hc1
    rw [hc] at h2
    simp only [Option.some.injEq, Prod.mk.injEq] at h2
    obtain ⟨_, rfl⟩ := h2
  · have h3 : env.partition = none := hp1
    rw [hp] at h3
    cases h3
  · have h3 : (allocate env size).2 = false := ha1
    rw [ha] at h3
    cases h3
  · have h3 : env.partition_read size = false := hr1
    rw [hr] at h3
    cases h3
  · have h3 : env.hostByName (hostname self) = none := hd1
    rw [hd] at h3
    cases h3
  · have h3 : env.hostByName (hostname self) = some ip1 := hd1
    rw [hd] at h3
    simp only [Option.some.injEq] at h3
    subst h3
    have h4 : env.connect ip (port self) = false := hk1
    rw [hk] at h4
    cases h4
  · rw [hrun1]

/-- C6 (amended): let the server send a status line, header lines and an empty
line, each ended by CRLF, then a body `b` (possibly empty); the status line and
the header lines are non-empty, contain no line feed and do not begin with CR
NUL. If `client.connected()` answers true at each of the reads of these lines,
then in every run that reaches the request the loop of line 258 reads exactly
these lines (each still ending in `\r`), the empty line last,
`client.readString()` returns exactly `b`, and the run ends at the final return
with `b` as the response. The status line is read as a line like the others and
nothing is taken from it: with any other such status line in its place the run
ends at the final return with the same `b`. -/
theorem C6_response_body (self : ESP32CrashUploader) (env : Env) (addr size : Nat)
    (resp st : List Byte) (hs : List (List Byte)) (b : List Byte)
    (himg : env.core_dump_image = some (addr, size))
    (hsent : (tryUpload self env).terminal = .Sent resp)
    (hst : (10 : Byte) ∉ st ∧ st ≠ [] ∧ ¬ ([13, 0] : List Byte) <+: st)
    (hh : ∀ h ∈ hs, (10 : Byte) ∉ h ∧ h ≠ [] ∧ ¬ ([13, 0] : List Byte) <+: h)
    (hrx : env.rx = st ++ CRLF ++ hs.flatMap (fun h => h ++ CRLF) ++ CRLF ++ b)
    (hlink : hs.length + 2 ≤ env.linkUp) :
    (readHeaders env.linkUp env.rx).1 =
      (st ++ [13]) :: hs.map (fun h => h ++ [13]) ++ [[13]] ∧
    response env = b ∧
    (tryUpload self env).terminal = .Sent b ∧
    (∃ pre, (tryUpload self env).trace =
      pre ++ ((st ++ [13]) :: hs.map (fun h => h ++ [13]) ++ [[13]]).map Event.readStringUntil ++
        [.readString b, .stop, .free]) ∧
    ∀ st1 : List Byte, (10 : Byte) ∉ st1 ∧ st1 ≠ [] ∧ ¬ ([13, 0] : List Byte) <+: st1 →
      (tryUpload self
        { env with rx := st1 ++ CRLF ++ hs.flatMap (fun h => h ++ CRLF) ++ CRLF ++ b }).terminal =
        .Sent b := by
  have hlines : ∀ s : List Byte,
      ((10 : Byte) ∉ s ∧ s ≠ [] ∧ ¬ ([13, 0] : List Byte) <+: s) →
      readHeaders env.linkUp (s ++ CRLF ++ hs.flatMap (fun h => h ++ CRLF) ++ CRLF ++ b) =
        ((s ++ [13]) :: hs.map (fun h => h ++ [13]) ++ [[13]], b) := by
    intro s hs1
    have h := readHeaders_lines (s :: hs) env.linkUp b
      (by
        intro x hx
        rcases List.mem_cons.1 hx with rfl | hx
        · exact hs1
        · exact hh x hx)
      (by simp; omega)
    simpa [List.flatMap_cons, List.append_assoc] using h
  have hread : readHeaders env.linkUp env.rx =
      ((st ++ [13]) :: hs.map (fun h => h ++ [13]) ++ [[13]], b) := by
    rw [hrx]
    exact hlines st hst
  obtain ⟨hresp, ip, ht⟩ := tryUpload_sent self env addr size resp himg hsent
  have hb : response env = b := by
    unfold response
    rw [hread]
  refine ⟨by rw [hread], hb, by rw [hsent, hresp, hb], ?_, ?_⟩
  · refine ⟨[.esp_reset_reason, .esp_core_dump_image_get true,
        .esp_partition_find_first true] ++ (allocate env size).1 ++
        [.esp_partition_read size true] ++
        [.hostByName (hostname self) true, .connect ip (port self) true] ++
        (requestHead self size).map Event.print ++
        [.print (bodyStart self),
         .write (readBuffer env size) (env.client_write (readBuffer env size)),
         .print bodyEnd], ?_⟩
    rw [ht]
    unfold exchange
    rw [hb, hread]
    simp
  · intro st1 hst1
    rw [tryUpload_terminal_of_rx self env _ resp hsent]
    have : response
        { env with rx := st1 ++ CRLF ++ hs.flatMap (fun h => h ++ CRLF) ++ CRLF ++ b } = b := by
      show (readHeaders env.linkUp
        (st1 ++ CRLF ++ hs.flatMap (fun h => h ++ CRLF) ++ CRLF ++ b)).2 = b
      rw [hlines st1 hst1]
    rw [this]

set_option maxRecDepth 100000 in
/-- C6 (amended) at the scenario of the specification: the answer
`HTTP/1.1 200 OK\r\n\r\nOK` gives the response `OK`, and so does the same
answer with the status line `HTTP/1.1 404 Not Found`. -/
theorem C6_response_body_witness :
    sampleEnv.rx = ascii "HTTP/1.1 200 OK" ++ CRLF ++
      ([] : List (List Byte)).flatMap (fun h => h ++ CRLF) ++ CRLF ++ ascii "OK" ∧
    sampleEnv.rx = ascii "HTTP/1.1 200 OK\r\n\r\nOK" ∧
    ([] : List (List Byte)).length + 2 ≤ sampleEnv.linkUp ∧
    (readHeaders sampleEnv.linkUp sampleEnv.rx).1 = [ascii "HTTP/1.1 200 OK\r", ascii "\r"] ∧
    (tryUpload sampleUploader sampleEnv).terminal = .Sent (ascii "OK") ∧
    (tryUpload sampleUploader
      { sampleEnv with
        rx := ascii "HTTP/1.1 404 Not Found" ++ CRLF ++
          ([] : List (List Byte)).flatMap (fun h => h ++ CRLF) ++ CRLF ++ ascii "OK" }).terminal =
      .Sent (ascii "OK") :=
  have hrx : sampleEnv.rx = ascii "HTTP/1.1 200 OK" ++ CRLF ++
      ([] : List (List Byte)).flatMap (fun h => h ++ CRLF) ++ CRLF ++ ascii "OK" := by decide
  have hsent : (tryUpload sampleUploader sampleEnv).terminal = .Sent (ascii "OK") := by decide
  have h := C6_response_body sampleUploader sampleEnv 1114112 128 (ascii "OK")
    (ascii "HTTP/1.1 200 OK") [] (ascii "OK") rfl hsent ⟨by decide, by decide, by decide⟩
    (fun _ hx => absurd hx (List.not_mem_nil _)) hrx (by decide)
  ⟨hrx, by decide, by decide, h.1.trans (by decide), h.2.2.1,
    h.2.2.2.2 (ascii "HTTP/1.1 404 Not Found") ⟨by decide, by decide, by decide⟩⟩

set_option maxRecDepth 100000 in
/-- C6 as stated fails in three ways, everything else being as in the scenario
of the specification. When `client.connected()` answers false before the first
line is read, no line is consumed and the response is the whole answer
`HTTP/1.1 200 OK\r\n\r\nOK`, status line included, not `OK`. The run carries no
status: the answer `HTTP/1.1 404 Not Found\r\n\r\nOK` ends in the very same
`Sent` as the answer `HTTP/1.1 200 OK\r\n\r\nOK`. And a header line that begins
with CR NUL compares equal to `"\r"`: after the lines `HTTP/1.1 200 OK`, `X: 1`
and CR NUL `Y` the loop stops, and the response is `\r\nOK`, not `OK`. -/
theorem C6_counterexample_as_stated :
    (closedEnv.rx = ascii "HTTP/1.1 200 OK\r\n\r\nOK" ∧
      (readHeaders closedEnv.linkUp closedEnv.rx).1 = [] ∧
      (tryUpload sampleUploader closedEnv).terminal =
        .Sent (ascii "HTTP/1.1 200 OK\r\n\r\nOK") ∧
      (tryUpload sampleUploader closedEnv).terminal ≠ .Sent (ascii "OK")) ∧
    (sampleEnv.rx = ascii "HTTP/1.1 200 OK\r\n\r\nOK" ∧
      notFoundEnv.rx = ascii "HTTP/1.1 404 Not Found\r\n\r\nOK" ∧
      (tryUpload sampleUploader sampleEnv).terminal = .Sent (ascii "OK") ∧
      (tryUpload sampleUploader notFoundEnv).terminal = .Sent (ascii "OK") ∧
      (tryUpload sampleUploader notFoundEnv).terminal =
        (tryUpload sampleUploader sampleEnv).terminal) ∧
    (nulLineEnv.rx =
        ascii "HTTP/1.1 200 OK" ++ CRLF ++
          [ascii "X: 1", [13, 0, 89]].flatMap (fun h => h ++ CRLF) ++ CRLF ++ ascii "OK" ∧
      (readHeaders nulLineEnv.linkUp nulLineEnv.rx).1 =
        [ascii "HTTP/1.1 200 OK\r", ascii "X: 1\r", [13, 0, 89, 13]] ∧
      (tryUpload sampleUploader nulLineEnv).terminal = .Sent (ascii "\r\nOK") ∧
      (tryUpload sampleUploader nulLineEnv).terminal ≠ .Sent (ascii "OK")) := by
  refine ⟨⟨by decide, by decide, by decide, by decide⟩,
    ⟨by decide, by decide, by decide, by decide, by decide⟩,
    ⟨by decide, by decide, by decide, by decide⟩⟩

/-! ## Round trip through the multipart reader -/

theorem startsWith_append_of_length_le {α : Type} [DecidableEq α] (p s x : List α)
    (h : p.length ≤ s.length) : startsWith p (s ++ x) = startsWith p s := by
  induction p generalizing s with
  | nil => simp [startsWith]
  | cons a as ih =>
    cases s with
    | nil => simp at h
    | cons b bs =>
      have h1 : as.length ≤ bs.length := by simpa using h
      by_cases hab : a = b
      · simp [startsWith, hab, ih bs h1]
      · simp [startsWith, hab]

theorem startsWith_false_of_clash {α : Type} [DecidableEq α] (p s y : List α)
    (h1 : startsWith p s = false) (h2 : startsWith s p = false) :
    startsWith p (s ++ y) = false := by
  cases h : startsWith p (s ++ y) with
  | false => rfl
  | true =>
    exfalso
    have hp : p <+: s ++ y := (startsWith_iff _ _).1 h
    have hs : s <+: s ++ y := List.prefix_append s y
    rcases List.prefix_or_prefix_of_prefix hp hs with h3 | h3
    · have := (startsWith_iff _ _).2 h3
      rw [h1] at this
      cases this
    · have := (startsWith_iff _ _).2 h3
      rw [h2] at this
      cases this

theorem breakOn_cons {α : Type} [DecidableEq α] (delim : List α) (c : α) (cs : List α) :
    breakOn delim (c :: cs) =
      if startsWith delim (c :: cs) = true then some ([], (c :: cs).drop delim.length)
      else
        match breakOn delim cs with
        | some (before, after) => some (c :: before, after)
        | none => none := by
  simp [breakOn]

theorem breakOn_here {α : Type} [DecidableEq α] (delim rest : List α) (h : delim ≠ []) :
    breakOn delim (delim ++ rest) = some ([], rest) := by
  cases delim with
  | nil => exact absurd rfl h
  | cons c cs =>
    have hsw := startsWith_append_self (c :: cs) rest
    rw [List.cons_append] at hsw ⊢
    rw [breakOn_cons, if_pos hsw]
    simp

theorem breakOn_skip {α : Type} [DecidableEq α] (delim a tail : List α)
    (h : ∀ t, t ≠ [] → t <:+ a → startsWith delim (t ++ tail) = false) :
    breakOn delim (a ++ tail) =
      match breakOn delim tail with
      | some (before, after) => some (a ++ before, after)
      | none => none := by
  induction a with
  | nil =>
    rw [List.nil_append]
    cases breakOn delim tail with
    | none => rfl
    | some p => simp
  | cons x xs ih =>
    have hx : startsWith delim (x :: (xs ++ tail)) = false := by
      have := h (x :: xs) (by simp) (List.suffix_refl _)
      simpa using this
    have ih1 := ih (fun t ht hs => h t ht (hs.trans (List.suffix_cons x xs)))
    rw [List.cons_append, breakOn_cons, hx, ih1]
    cases breakOn delim tail with
    | none => simp
    | some p => simp

/-- A text that does not contain `c :: d`, where `c` does not occur in `d`, has
no occurrence of `c :: d` starting inside it when `c :: d` follows it. -/
theorem no_start_of_not_infix {α : Type} [DecidableEq α] (c : α) (d a rest : List α)
    (hc : c ∉ d) (ha : ¬ (c :: d) <:+: a) :
    ∀ t, t ≠ [] → t <:+ a → startsWith (c :: d) (t ++ ((c :: d) ++ rest)) = false := by
  intro t ht hs
  cases h : startsWith (c :: d) (t ++ ((c :: d) ++ rest)) with
  | false => rfl
  | true =>
    exfalso
    have hp : (c :: d) <+: t ++ ((c :: d) ++ rest) := (startsWith_iff _ _).1 h
    rcases List.prefix_or_prefix_of_prefix hp (List.prefix_append t _) with h3 | h3
    · exact ha (h3.isInfix.trans hs.isInfix)
    · obtain ⟨u, hu⟩ := h3
      have hp1 : t ++ u <+: t ++ ((c :: d) ++ rest) := by
        rw [hu]
        exact hp
      have hu2 : u <+: (c :: d) ++ rest := (List.prefix_append_right_inj t).1 hp1
      cases t with
      | nil => exact ht rfl
      | cons x xs =>
        cases u with
        | nil =>
          rw [List.append_nil] at hu
          exact ha (hu ▸ hs.isInfix)
        | cons y ys =>
          have hy : y = c := by
            obtain ⟨w, hw⟩ := hu2
            simp only [List.cons_append, List.cons.injEq] at hw
            exact hw.1
          simp only [List.cons_append, List.cons.injEq] at hu
          have hmem : c ∈ d := by
            rw [← hu.2, ← hy]
            simp
          exact hc hmem

theorem delimiter_eq : delimiter = 13 :: ([10] ++ ascii "--" ++ boundary) := by decide

theorem delimiter_tail_no_cr : (13 : Byte) ∉ [10] ++ ascii "--" ++ boundary := by decide

theorem delimiter_ne_nil : delimiter ≠ [] := by decide

/-- One part and the delimiter after it: the search for the delimiter passes
over the header block and over a content that is free of it. -/
theorem breakOn_delimiter_part (h0 f rest : List Byte)
    (hh : ∀ t ∈ h0.tails, t ≠ [] →
      startsWith delimiter (t ++ CRLF) = false ∧ startsWith (t ++ CRLF) delimiter = false)
    (hf : ¬ delimiter <:+: CRLF ++ f) :
    breakOn delimiter (h0 ++ ((CRLF ++ f) ++ (delimiter ++ rest))) =
      some (h0 ++ (CRLF ++ f), rest) := by
  have s1 := breakOn_skip delimiter h0 ((CRLF ++ f) ++ (delimiter ++ rest)) (by
    intro t ht hs
    have hc := hh t ((List.mem_tails _ _).2 hs) ht
    have := startsWith_false_of_clash delimiter (t ++ CRLF) (f ++ (delimiter ++ rest)) hc.1 hc.2
    simpa [List.append_assoc] using this)
  have s2 := breakOn_skip delimiter (CRLF ++ f) (delimiter ++ rest) (by
    have hf1 : ¬ (13 :: ([10] ++ ascii "--" ++ boundary)) <:+: CRLF ++ f := by
      rw [← delimiter_eq]
      exact hf
    have := no_start_of_not_infix 13 ([10] ++ ascii "--" ++ boundary) (CRLF ++ f) rest
      delimiter_tail_no_cr hf1
    rw [← delimiter_eq] at this
    exact this)
  rw [s1, s2, breakOn_here delimiter rest delimiter_ne_nil]
  simp

/-- The empty line that ends a header block is the first one of the part. -/
theorem headersAndContent_part (hdr f : List Byte)
    (hh : ∀ t ∈ hdr.tails, t ≠ [] → startsWith (CRLF ++ CRLF) (t ++ (CRLF ++ CRLF)) = false) :
    headersAndContent ((hdr ++ CRLF) ++ (CRLF ++ f)) = some (hdr, f) := by
  have hshape : (hdr ++ CRLF) ++ (CRLF ++ f) = hdr ++ ((CRLF ++ CRLF) ++ f) := by
    simp [List.append_assoc]
  unfold headersAndContent
  rw [hshape, breakOn_skip (CRLF ++ CRLF) hdr ((CRLF ++ CRLF) ++ f) (by
    intro t ht hs
    have hc := hh t ((List.mem_tails _ _).2 hs) ht
    have hl : (CRLF ++ CRLF).length ≤ (t ++ (CRLF ++ CRLF)).length := by simp
    have := startsWith_append_of_length_le (CRLF ++ CRLF) (t ++ (CRLF ++ CRLF)) f hl
    rw [hc] at this
    simpa [List.append_assoc] using this),
    breakOn_here (CRLF ++ CRLF) f (by decide)]
  simp

set_option maxRecDepth 1000000 in
theorem fieldHeaders_clash (name : String)
    (hn : name = "version" ∨ name = "project" ∨ name = "device_id" ∨ name = "fqbn") :
    (∀ t ∈ (fieldHeaders name ++ CRLF).tails, t ≠ [] →
      startsWith delimiter (t ++ CRLF) = false ∧ startsWith (t ++ CRLF) delimiter = false) ∧
    (∀ t ∈ (fieldHeaders name).tails, t ≠ [] →
      startsWith (CRLF ++ CRLF) (t ++ (CRLF ++ CRLF)) = false) ∧
    partName (fieldHeaders name) = some (ascii name) ∧
    startsWith (ascii "--") (fieldHeaders name ++ CRLF) = false ∧
    ascii name ≠ ascii "coredump" := by
  rcases hn with rfl | rfl | rfl | rfl <;> decide

set_option maxRecDepth 1000000 in
theorem coredumpHeaders_clash :
    (∀ t ∈ (coredumpHeaders ++ CRLF).tails, t ≠ [] →
      startsWith delimiter (t ++ CRLF) = false ∧ startsWith (t ++ CRLF) delimiter = false) ∧
    (∀ t ∈ coredumpHeaders.tails, t ≠ [] →
      startsWith (CRLF ++ CRLF) (t ++ (CRLF ++ CRLF)) = false) ∧
    partName coredumpHeaders = some (ascii "coredump") ∧
    startsWith (ascii "--") (coredumpHeaders ++ CRLF) = false := by
  decide

theorem splitOn_succ {α : Type} [DecidableEq α] (delim : List α) (fuel : Nat) (s : List α) :
    splitOn delim (fuel + 1) s =
      match breakOn delim s with
      | none => [s]
      | some (before, after) => before :: splitOn delim fuel after := rfl

set_option maxRecDepth 100000 in
/-- The body of the request, with a CRLF in front, as the reader sees it: five
parts, each after a delimiter, and the close delimiter. -/
theorem body_framing (self : ESP32CrashUploader) (id d : List Byte)
    (hid : self._deviceId = some id) :
    CRLF ++ (bodyStart self ++ d ++ bodyEnd) =
      delimiter ++ ((fieldHeaders "version" ++ CRLF) ++ ((CRLF ++ self._firmwareVersion) ++
      (delimiter ++ ((fieldHeaders "project" ++ CRLF) ++ ((CRLF ++ self._project) ++
      (delimiter ++ ((fieldHeaders "device_id" ++ CRLF) ++ ((CRLF ++ id) ++
      (delimiter ++ ((fieldHeaders "fqbn" ++ CRLF) ++ ((CRLF ++ self._fqbn) ++
      (delimiter ++ ((coredumpHeaders ++ CRLF) ++ ((CRLF ++ d) ++
      (delimiter ++ ascii "--\r\n"))))))))))))))) := by
  have e0 : ascii "\r\n" = CRLF := by decide
  have e1 : ascii "Content-Disposition: form-data; name=\"version\"\r\n\r\n" =
      ascii "Content-Disposition: form-data; name=\"" ++ ascii "version" ++ ascii "\"" ++
        CRLF ++ CRLF := by decide
  have e2 : ascii "Content-Disposition: form-data; name=\"project\"\r\n\r\n" =
      ascii "Content-Disposition: form-data; name=\"" ++ ascii "project" ++ ascii "\"" ++
        CRLF ++ CRLF := by decide
  have e3 : ascii "Content-Disposition: form-data; name=\"device_id\"\r\n\r\n" =
      ascii "Content-Disposition: form-data; name=\"" ++ ascii "device_id" ++ ascii "\"" ++
        CRLF ++ CRLF := by decide
  have e4 : ascii "Content-Disposition: form-data; name=\"fqbn\"\r\n\r\n" =
      ascii "Content-Disposition: form-data; name=\"" ++ ascii "fqbn" ++ ascii "\"" ++
        CRLF ++ CRLF := by decide
  have e5 : ascii
      "Content-Disposition: form-data; name=\"coredump\"; filename=\"coredump.bin\"\r\n" =
      ascii "Content-Disposition: form-data; name=\"coredump\"; filename=\"coredump.bin\"" ++
        CRLF := by decide
  have e6 : ascii "Content-Type: application/octet-stream\r\n\r\n" =
      ascii "Content-Type: application/octet-stream" ++ CRLF ++ CRLF := by decide
  have e7 : ascii "\r\n--" = CRLF ++ ascii "--" := by decide
  have e8 : ascii "--\r\n" = ascii "--" ++ CRLF := by decide
  simp only [bodyStart, bodyEnd, hid, plusCStr, fieldHeaders, coredumpHeaders, delimiter,
    e0, e1, e2, e3, e4, e5, e6, e7, e8, List.append_assoc]

theorem startsWith_dashes_part (h0 tail : List Byte)
    (h : startsWith (ascii "--") h0 = false) (hl : 2 ≤ h0.length) :
    startsWith (ascii "--") (h0 ++ tail) = false := by
  rw [startsWith_append_of_length_le (ascii "--") h0 tail (by simpa using hl)]
  exact h

theorem length_fieldHeaders_le (name : String) : 2 ≤ (fieldHeaders name ++ CRLF).length := by
  simp [fieldHeaders, CRLF]

theorem length_coredumpHeaders_le : 2 ≤ (coredumpHeaders ++ CRLF).length := by
  simp [coredumpHeaders, CRLF]

theorem contentNamed_cons (name part : List Byte) (rest : List (List Byte)) :
    contentNamed name (part :: rest) =
      match headersAndContent part with
      | some (headers, content) =>
        if partName headers = some name then some content else contentNamed name rest
      | none => contentNamed name rest := rfl

theorem partsUntilClose_cons (piece : List Byte) (rest : List (List Byte)) :
    partsUntilClose (piece :: rest) =
      if startsWith (ascii "--") piece = true then [] else piece :: partsUntilClose rest := by
  simp [partsUntilClose]

/-- What the reader finds in a body whose text fields and attachment are free
of the delimiter. -/
theorem multipartParts_body (self : ESP32CrashUploader) (id d : List Byte)
    (hid : self._deviceId = some id)
    (hv : ¬ delimiter <:+: CRLF ++ self._firmwareVersion)
    (hp : ¬ delimiter <:+: CRLF ++ self._project)
    (hi : ¬ delimiter <:+: CRLF ++ id)
    (hq : ¬ delimiter <:+: CRLF ++ self._fqbn)
    (hd : ¬ delimiter <:+: CRLF ++ d) :
    multipartParts (bodyStart self ++ d ++ bodyEnd) =
      [(fieldHeaders "version" ++ CRLF) ++ (CRLF ++ self._firmwareVersion),
       (fieldHeaders "project" ++ CRLF) ++ (CRLF ++ self._project),
       (fieldHeaders "device_id" ++ CRLF) ++ (CRLF ++ id),
       (fieldHeaders "fqbn" ++ CRLF) ++ (CRLF ++ self._fqbn),
       (coredumpHeaders ++ CRLF) ++ (CRLF ++ d)] := by
  have c1 := fieldHeaders_clash "version" (Or.inl rfl)
  have c2 := fieldHeaders_clash "project" (Or.inr (Or.inl rfl))
  have c3 := fieldHeaders_clash "device_id" (Or.inr (Or.inr (Or.inl rfl)))
  have c4 := fieldHeaders_clash "fqbn" (Or.inr (Or.inr (Or.inr rfl)))
  have c5 := coredumpHeaders_clash
  have hlen : ∃ k, (bodyStart self ++ d ++ bodyEnd).length + 3 = k + 7 := by
    have hb : bodyEnd.length = 23 := by decide
    refine ⟨(bodyStart self).length + d.length + 19, ?_⟩
    simp only [List.length_append, hb]
  obtain ⟨k, hk⟩ := hlen
  have hclose : breakOn delimiter (ascii "--\r\n") = none := by decide
  have hsplit : boundarySplit (bodyStart self ++ d ++ bodyEnd) =
      [[], (fieldHeaders "version" ++ CRLF) ++ (CRLF ++ self._firmwareVersion),
       (fieldHeaders "project" ++ CRLF) ++ (CRLF ++ self._project),
       (fieldHeaders "device_id" ++ CRLF) ++ (CRLF ++ id),
       (fieldHeaders "fqbn" ++ CRLF) ++ (CRLF ++ self._fqbn),
       (coredumpHeaders ++ CRLF) ++ (CRLF ++ d), ascii "--\r\n"] := by
    unfold boundarySplit
    rw [hk, body_framing self id d hid]
    rw [splitOn_succ, breakOn_here _ _ delimiter_ne_nil]
    simp only []
    rw [splitOn_succ, breakOn_delimiter_part _ _ _ c1.1 hv]
    simp only []
    rw [splitOn_succ, breakOn_delimiter_part _ _ _ c2.1 hp]
    simp only []
    rw [splitOn_succ, breakOn_delimiter_part _ _ _ c3.1 hi]
    simp only []
    rw [splitOn_succ, breakOn_delimiter_part _ _ _ c4.1 hq]
    simp only []
    rw [splitOn_succ, breakOn_delimiter_part _ _ _ c5.1 hd]
    simp only []
    rw [splitOn_succ, hclose]
  unfold multipartParts
  rw [hsplit, List.tail_cons]
  rw [partsUntilClose_cons, startsWith_dashes_part _ _ c1.2.2.2.1 (length_fieldHeaders_le _)]
  rw [partsUntilClose_cons, startsWith_dashes_part _ _ c2.2.2.2.1 (length_fieldHeaders_le _)]
  rw [partsUntilClose_cons, startsWith_dashes_part _ _ c3.2.2.2.1 (length_fieldHeaders_le _)]
  rw [partsUntilClose_cons, startsWith_dashes_part _ _ c4.2.2.2.1 (length_fieldHeaders_le _)]
  rw [partsUntilClose_cons, startsWith_dashes_part _ _ c5.2.2.2 length_coredumpHeaders_le]
  rw [partsUntilClose_cons]
  have hlast : startsWith (ascii "--") (ascii "--\r\n") = true := by decide
  rw [hlast]
  simp

/-- C3 (amended): when `_deviceId` is not null and neither the four text
fields nor the dump `d` contains the delimiter CRLF `--` boundary (the start of
a field or of the dump counting as the start of a line), splitting the body
`bodyStart ++ d ++ bodyEnd` at the delimiter and taking the content of the part
named `coredump` gives back exactly `d`. The empty dump satisfies the condition
and gives back the empty attachment. -/
theorem C3_round_trip (self : ESP32CrashUploader) (id d : List Byte)
    (hid : self._deviceId = some id)
    (hv : ¬ delimiter <:+: CRLF ++ self._firmwareVersion)
    (hp : ¬ delimiter <:+: CRLF ++ self._project)
    (hi : ¬ delimiter <:+: CRLF ++ id)
    (hq : ¬ delimiter <:+: CRLF ++ self._fqbn)
    (hd : ¬ delimiter <:+: CRLF ++ d) :
    decodeCoredump (bodyStart self ++ d ++ bodyEnd) = some d ∧
    decodeCoredump (bodyStart self ++ [] ++ bodyEnd) = some [] := by
  have c1 := fieldHeaders_clash "version" (Or.inl rfl)
  have c2 := fieldHeaders_clash "project" (Or.inr (Or.inl rfl))
  have c3 := fieldHeaders_clash "device_id" (Or.inr (Or.inr (Or.inl rfl)))
  have c4 := fieldHeaders_clash "fqbn" (Or.inr (Or.inr (Or.inr rfl)))
  have c5 := coredumpHeaders_clash
  have key : ∀ x : List Byte, ¬ delimiter <:+: CRLF ++ x →
      decodeCoredump (bodyStart self ++ x ++ bodyEnd) = some x := by
    intro x hx
    unfold decodeCoredump
    rw [multipartParts_body self id x hid hv hp hi hq hx]
    have n1 : ¬ (some (ascii "version") = some (ascii "coredump")) := by
      simpa using c1.2.2.2.2
    have n2 : ¬ (some (ascii "project") = some (ascii "coredump")) := by
      simpa using c2.2.2.2.2
    have n3 : ¬ (some (ascii "device_id") = some (ascii "coredump")) := by
      simpa using c3.2.2.2.2
    have n4 : ¬ (some (ascii "fqbn") = some (ascii "coredump")) := by
      simpa using c4.2.2.2.2
    rw [contentNamed_cons, headersAndContent_part _ _ c1.2.1]
    simp only [c1.2.2.1, n1, if_false]
    rw [contentNamed_cons, headersAndContent_part _ _ c2.2.1]
    simp only [c2.2.2.1, n2, if_false]
    rw [contentNamed_cons, headersAndContent_part _ _ c3.2.1]
    simp only [c3.2.2.1, n3, if_false]
    rw [contentNamed_cons, headersAndContent_part _ _ c4.2.1]
    simp only [c4.2.2.1, n4, if_false]
    rw [contentNamed_cons, headersAndContent_part _ _ c5.2.1]
    simp only [c5.2.2.1, if_true]
  exact ⟨key d hd, key [] (by decide)⟩

set_option maxRecDepth 1000000 in
/-- C3 (amended) at the scenario of the specification: the 128 bytes
`0x00..0x7F` come back. -/
theorem C3_round_trip_witness :
    sampleUploader._deviceId = some (ascii "dev-1") ∧
    ¬ delimiter <:+: CRLF ++ readBuffer sampleEnv 128 ∧
    decodeCoredump (bodyStart sampleUploader ++ readBuffer sampleEnv 128 ++ bodyEnd) =
      some (readBuffer sampleEnv 128) :=
  have hd : ¬ delimiter <:+: CRLF ++ readBuffer sampleEnv 128 := by decide
  ⟨rfl, hd,
    (C3_round_trip sampleUploader (ascii "dev-1") (readBuffer sampleEnv 128) rfl (by decide)
      (by decide) (by decide) (by decide) hd).1⟩

set_option maxRecDepth 1000000 in
/-- C3 as stated fails for a dump that contains the delimiter: from the body
built around the dump `A\r\n------ESPBOUNDARY--\r\nB` the reader gets the
attachment `A`. -/
theorem C3_counterexample_dump_with_delimiter :
    decodeCoredump
        (bodyStart sampleUploader ++ ascii "A\r\n------ESPBOUNDARY--\r\nB" ++ bodyEnd) =
      some (ascii "A") ∧
    decodeCoredump
        (bodyStart sampleUploader ++ ascii "A\r\n------ESPBOUNDARY--\r\nB" ++ bodyEnd) ≠
      some (ascii "A\r\n------ESPBOUNDARY--\r\nB") := by
  decide

/-! ## The statements at sample inputs -/

/-- C1 after a software restart: two calls in a row, both skipped, each with
the reset-reason query as its only call. -/
theorem C1_skip_iff_sw_or_poweron_witness :
    restartEnv.reset_reason = .ESP_RST_SW ∧
    (tryUpload sampleUploader restartEnv).terminal = .Skipped ∧
    (tryUpload (tryUpload sampleUploader restartEnv).self restartEnv).terminal = .Skipped ∧
    (tryUpload (tryUpload sampleUploader restartEnv).self restartEnv).trace =
      [.esp_reset_reason] ∧
    (tryUpload (tryUpload sampleUploader restartEnv).self restartEnv).self = sampleUploader :=
  ⟨rfl, (C1_skip_iff_sw_or_poweron sampleUploader restartEnv).2.2.1 rfl⟩

set_option maxRecDepth 100000 in
/-- C4 at the scenario of the specification: one buffer acquired, one `free`,
the last call of the run. -/
theorem C4_acquire_release_balance_witness :
    (tryUpload sampleUploader sampleEnv).terminal = .Sent (ascii "OK") ∧
    acquisitions (tryUpload sampleUploader sampleEnv).trace = 1 ∧
    releases (tryUpload sampleUploader sampleEnv).trace = 1 ∧
    (tryUpload sampleUploader sampleEnv).trace.getLast? = some .free :=
  have hsent : (tryUpload sampleUploader sampleEnv).terminal = .Sent (ascii "OK") := by decide
  ⟨hsent, (C4_acquire_release_balance sampleUploader sampleEnv).2.2.1
    (Or.inr (Or.inr (Or.inr ⟨_, hsent⟩)))⟩

set_option maxRecDepth 100000 in
/-- C5 with a resolver that fails: the run ends in `DnsFailed` and makes no
connect. -/
theorem C5_stages_in_order_witness :
    Event.hostByName (ascii "example.com") false ∈ (tryUpload sampleUploader noDnsEnv).trace ∧
    (tryUpload sampleUploader noDnsEnv).terminal = .DnsFailed ∧
    ∀ e ∈ (tryUpload sampleUploader noDnsEnv).trace, e.stage ≠ some .connect :=
  have hmem : Event.hostByName (ascii "example.com") false ∈
      (tryUpload sampleUploader noDnsEnv).trace := by decide
  ⟨hmem, (C5_stages_in_order sampleUploader noDnsEnv).2.2.2.1 _ hmem⟩

set_option maxRecDepth 100000 in
/-- C9 without a device id and with the MAC `0A:1A:2A:3A:4A:5A`: the id
becomes `0A1A2A3A4A5A`. -/
theorem C9_device_id_witness :
    anonymousUploader._deviceId = none ∧
    (begin anonymousUploader (ascii "ssid") (ascii "password") sampleEnv).self._deviceId =
      some (ascii "0A1A2A3A4A5A") ∧
    unhex (ascii "0A1A2A3A4A5A") = [10, 26, 42, 58, 74, 90] :=
  ⟨rfl,
    (((C9_device_id anonymousUploader (ascii "ssid") (ascii "password") sampleEnv).1
      (Or.inl rfl)).1).trans (by decide),
    by decide⟩

end Dumper
